import Mathlib

/-!
# sol-gateway-api: the invoice settlement engine of `src/app.js`

A shallow embedding of the Express handlers and of the monitor callback that
`scheduleCronJob` registers with the cron library.

Modelling conventions.

* The three collaborators (Prisma store, Solana connection, axios) are explicit
  state: the store's tables and the writes applied to them, the calls received by
  the ledger, and the posts received by the webhook endpoint.
* What a collaborator answers during one run of the callback is an input of that
  run (`TickEnv`): the account record the ledger returns, and for each call
  whether it throws.
* A JavaScript number is represented by its value, a rational. The two arithmetic
  operations of the callback, `lamports / LAMPORTS_PER_SOL` (lines 64 and 68) and
  `lamports - 5000` (line 78), round to the nearest binary64 number, ties to even
  (`binary64`, `jsDiv`, `jsSub`).
* `new PublicKey(process.env.ADMIN_WALLET)` (line 60) yields an address or throws;
  its outcome is a parameter of the callback.
* `SystemProgram.transfer` (lines 75 to 79) throws on a negative amount of lamports;
  lines 74 to 80 are outside the `try`, so that error rejects the callback.
* The base58 text of an address is represented by the public key it encodes, and
  the JSON text of the secret key by the byte array it encodes. The private key a
  task captures is the one `POST /invoices` serialized from `Keypair.generate()`, on
  which lines 70 and 71 do not throw.
* Runs of the callback of one task do not overlap (`runTicks`).
-/

namespace SolGateway

/-! ## Data model -/

/-- A Solana public key, as its bytes. -/
structure PublicKey where
  bytes : List Nat
deriving DecidableEq, Repr

/-- A key pair of `@solana/web3.js`: a 64 byte secret key whose last 32 bytes are
the public key. -/
structure Keypair where
  publicKey : PublicKey
  secretKey : List Nat
deriving DecidableEq, Repr

/-- The library's `Keypair.fromSecretKey` on a secret key that `Keypair.generate()`
produced, the only kind a task captures: the size and validity checks of the library
pass, and the public key is read from bytes 32 to 64 of the secret key. -/
def Keypair.fromSecretKey (secretKey : List Nat) : Keypair :=
  { publicKey := ⟨(secretKey.drop 32).take 32⟩, secretKey := secretKey }

/-! ### JavaScript numbers -/

/-- The integer part of the base 2 logarithm of `n`, by halving at most `fuel` times. -/
def floorLog2Aux : Nat → Nat → Nat
  | 0, _ => 0
  | fuel + 1, n => if n < 2 then 0 else floorLog2Aux fuel (n / 2) + 1

/-- The integer part of the base 2 logarithm of a positive `n`. -/
def floorLog2 (n : Nat) : Nat := floorLog2Aux n n

/-- The integer nearest to `num / den`, a tie going to the even one. -/
def roundHalfEven (num den : Nat) : Nat :=
  let q := num / den
  let r := num % den
  if den < 2 * r ∨ (2 * r = den ∧ q % 2 = 1) then q + 1 else q

/-- A binary64 number `mantissa * 2 ^ up / 2 ^ down`. -/
structure Binary64Parts where
  mantissa : Nat
  up : Nat
  down : Nat
deriving DecidableEq, Repr

/-- The 53 bit significand and the exponent of the binary64 number nearest to the
positive quotient `n / d`: the quotient is scaled into the interval from `2 ^ 52` to
`2 ^ 53` and rounded there to an integer, ties to even. -/
def binary64Parts (n d : Nat) : Binary64Parts :=
  let b := floorLog2 n
  let c := floorLog2 d
  let num := n * 2 ^ (c + 53)
  let den := d * 2 ^ b
  if 2 ^ 53 * den ≤ num then
    ⟨roundHalfEven num (2 * den), b + 1, c + 53⟩
  else
    ⟨roundHalfEven num den, b, c + 53⟩

/-- The binary64 number nearest to `n / d` (round to nearest, ties to even), for a
quotient in the normal range of binary64, as are the quotients and differences of
lamport amounts (below `2 ^ 64`) this program computes. -/
def binary64 (n d : Nat) : ℚ :=
  if n = 0 then 0
  else
    let p := binary64Parts n d
    (p.mantissa * 2 ^ p.up : ℚ) / 2 ^ p.down

/-- The JavaScript quotient `a / b` of two numbers holding non-negative integers. -/
def jsDiv (a b : Nat) : ℚ := binary64 a b

/-- The JavaScript difference `a - b` of two numbers holding non-negative integers. -/
def jsSub (a b : Nat) : ℚ :=
  if b ≤ a then binary64 (a - b) 1 else -binary64 (b - a) 1

/-- The library constant `LAMPORTS_PER_SOL`. -/
def LAMPORTS_PER_SOL : Nat := 1000000000

/-- A row of the `invoice` table, with the columns written by `prisma.invoice.create`
in `app.post('/invoices')` and the id the store assigns. -/
structure Invoice where
  id : Nat
  amount : ℚ
  walletAddress : PublicKey
  privateKey : List Nat
  status : String
  webhookUrl : Option String
deriving DecidableEq, Repr

/-- A row of the `cronJob` table. -/
structure CronJob where
  id : Nat
  invoiceId : Nat
  processId : String
  status : String
deriving DecidableEq, Repr

/-- A JSON value as it appears in the bodies this program sends. -/
inductive JsonValue where
  | null
  | num (q : ℚ)
  | str (s : String)
  | address (k : PublicKey)
  | byteArray (b : List Nat)
deriving DecidableEq, Repr

/-- A JSON object: its own enumerable properties, in order. -/
abbrev JsonObject := List (String × JsonValue)

/-- The JavaScript object Prisma returns for an invoice row: every column is an own
property. A missing `webhookUrl` is stored as `null`. -/
def Invoice.toObject (i : Invoice) : JsonObject :=
  [ ("id", .num i.id),
    ("amount", .num i.amount),
    ("walletAddress", .address i.walletAddress),
    ("privateKey", .byteArray i.privateKey),
    ("status", .str i.status),
    ("webhookUrl", match i.webhookUrl with
                   | some u => .str u
                   | none => .null) ]

/-- The JavaScript `delete obj[key]`. -/
def JsonObject.delete (o : JsonObject) (key : String) : JsonObject :=
  o.filter (fun kv => kv.1 != key)

/-- Whether the object has the property `key`. -/
def JsonObject.hasKey (o : JsonObject) (key : String) : Bool :=
  o.any (fun kv => kv.1 == key)

/-- A value thrown by a collaborator. `logs` is the diagnostic trace a ledger
error may carry. -/
structure JsError where
  message : String
  logs : Option (List String)
deriving DecidableEq, Repr

/-- A write applied to the store. -/
inductive StoreWrite where
  | invoiceCreate (id : Nat)
  | cronJobCreate (id : Nat)
  | invoiceUpdate (id : Nat) (status : String)
  | cronJobUpdate (id : Nat) (status : String)
deriving DecidableEq, Repr

/-- A call received by the ledger through `connection`. A transfer carries the value
of the number the code passed as `lamports`. -/
inductive LedgerCall where
  | getAccountInfo (address : PublicKey)
  | sendAndConfirmTransaction (fromPubkey toPubkey : PublicKey) (lamports : ℚ)
      (signers : List Keypair)
deriving DecidableEq, Repr

/-- A call of `axios.post`. -/
structure WebhookPost where
  url : String
  payload : JsonObject
deriving DecidableEq, Repr

/-- The arguments of one call of `scheduleCronJob`, captured by its callback. -/
structure MonitorTask where
  cronJobId : Nat
  payerPublicKey : PublicKey
  amount : ℚ
  webhookUrl : Option String
  privateKey : List Nat
deriving DecidableEq, Repr

/-- The state of the process and of its collaborators. -/
structure World where
  invoices : List Invoice
  cronJobs : List CronJob
  storeWrites : List StoreWrite
  ledgerCalls : List LedgerCall
  webhookPosts : List WebhookPost
  tasks : List MonitorTask
deriving DecidableEq, Repr

/-- The record `connection.getAccountInfo` resolves to when the account exists;
`lamports` is the value of its number, a non-negative integer. -/
structure AccountInfo where
  lamports : Nat
deriving DecidableEq, Repr

/-- What the collaborators answer during one run of the monitor callback: for each
call that may throw, the error it throws (`none` when it succeeds), and the result
of `getAccountInfo`. -/
structure TickEnv where
  findUniqueError : Option JsError
  accountInfo : Except JsError (Option AccountInfo)
  transferError : Option JsError
  invoiceUpdateError : Option JsError
  cronJobUpdateError : Option JsError
  postError : Option JsError

/-- A line written to the console by the callback. -/
inductive ConsoleLine where
  | cronJobRunning (cronJobId : Nat)
  | alreadyCompleted (cronJobId : Nat)
  | currentBalance (address : PublicKey) (balance : ℚ)
  | invoicePaid (invoiceId cronJobId : Nat)
  | errorTransferring (invoiceId : Nat) (error : JsError)
  | transactionLogs (logs : List String)
deriving DecidableEq, Repr

/-- How a run of the async callback ends: its promise resolves, or it rejects with
the error that escaped the callback. -/
inductive Outcome where
  | resolved
  | rejected (error : JsError)
deriving DecidableEq, Repr

/-- The result of one run of the monitor callback. -/
structure TickResult where
  world : World
  console : List ConsoleLine
  outcome : Outcome
deriving DecidableEq, Repr

/-! ## The store -/

/-- The store's `prisma.invoice.findUnique` by id. -/
def invoiceFindUnique (w : World) (id : Nat) : Option Invoice :=
  w.invoices.find? (fun i => i.id == id)

/-- The store's `prisma.cronJob.findUnique` by id. -/
def cronJobFindUnique (w : World) (id : Nat) : Option CronJob :=
  w.cronJobs.find? (fun j => j.id == id)

/-- The error Prisma throws when the row of an `update` does not exist. -/
def recordNotFound : JsError :=
  { message := "Record to update not found.", logs := none }

/-- The `TypeError` of reading `status` of `null`. -/
def nullStatusTypeError : JsError :=
  { message := "Cannot read properties of null (reading 'status')", logs := none }

/-- The effect of an `update` of the status column of the invoice row `id`. -/
def World.setInvoiceStatus (w : World) (id : Nat) (status : String) : World :=
  { w with
    invoices := w.invoices.map (fun i => if i.id = id then { i with status := status } else i),
    storeWrites := w.storeWrites ++ [.invoiceUpdate id status] }

/-- The effect of an `update` of the status column of the job row `id`. -/
def World.setCronJobStatus (w : World) (id : Nat) (status : String) : World :=
  { w with
    cronJobs := w.cronJobs.map (fun j => if j.id = id then { j with status := status } else j),
    storeWrites := w.storeWrites ++ [.cronJobUpdate id status] }

/-- The store's `prisma.invoice.update` of the status column: the updated row and the
new state, or the error thrown when the row does not exist. -/
def invoiceUpdate (w : World) (id : Nat) (status : String) : Except JsError (Invoice × World) :=
  match invoiceFindUnique w id with
  | none => .error recordNotFound
  | some inv => .ok ({ inv with status := status }, w.setInvoiceStatus id status)

/-- The store's `prisma.cronJob.update` of the status column. -/
def cronJobUpdate (w : World) (id : Nat) (status : String) : Except JsError (CronJob × World) :=
  match cronJobFindUnique w id with
  | none => .error recordNotFound
  | some job => .ok ({ job with status := status }, w.setCronJobStatus id status)

/-- The ledger receives a call. -/
def World.addLedgerCall (w : World) (call : LedgerCall) : World :=
  { w with ledgerCalls := w.ledgerCalls ++ [call] }

/-- The webhook endpoint receives a post. -/
def World.addWebhookPost (w : World) (post : WebhookPost) : World :=
  { w with webhookPosts := w.webhookPosts ++ [post] }

/-! ## The monitor callback of `scheduleCronJob` -/

/-- The fixed amount of lamports the sweep leaves behind (line 78). -/
def RESERVE : Nat := 5000

/-- The `catch` block (lines 108 to 113): log the error, and its logs when it has
some; the callback then ends normally. -/
def catchBlock (w : World) (console : List ConsoleLine) (cronJob : CronJob) (error : JsError) :
    TickResult :=
  let c1 := console ++ [.errorTransferring cronJob.invoiceId error]
  match error.logs with
  | some logs => ⟨w, c1 ++ [.transactionLogs logs], .resolved⟩
  | none => ⟨w, c1, .resolved⟩

/-- The payload posted to the webhook (lines 99 to 104). -/
def webhookPayload (invoice : Invoice) : JsonObject :=
  [ ("invoiceId", .num invoice.id),
    ("status", .str invoice.status),
    ("amount", .num invoice.amount),
    ("walletAddress", .address invoice.walletAddress) ]

/-- The error `SystemProgram.transfer` throws for a negative amount of lamports, which
it cannot encode as an unsigned 64 bit integer. -/
def lamportsEncodeError : JsError :=
  { message := "Blob.encode[lamports] requires (length 8) Uint8Array as src", logs := none }

/-- A transfer instruction of the system program. -/
structure TransferInstruction where
  fromPubkey : PublicKey
  toPubkey : PublicKey
  lamports : ℚ
deriving DecidableEq, Repr

/-- The library's `SystemProgram.transfer`: the instruction, or the error thrown for a
negative amount. -/
def SystemProgram.transfer (fromPubkey toPubkey : PublicKey) (lamports : ℚ) :
    Except JsError TransferInstruction :=
  if lamports < 0 then .error lamportsEncodeError
  else .ok ⟨fromPubkey, toPubkey, lamports⟩

/-- Lines 69 to 113: rebuild the payer from the private key and build the transfer of
`lamports - 5000` to the admin wallet (an error there is outside the `try` and rejects
the callback); then, inside the `try`, submit the transfer, mark the invoice paid and
the job completed, and post to the webhook. -/
def sweep (adminWallet : PublicKey) (t : MonitorTask) (e : TickEnv) (cronJob : CronJob)
    (accountInfo : AccountInfo) (w : World) (console : List ConsoleLine) : TickResult :=
  let payer := Keypair.fromSecretKey t.privateKey
  match SystemProgram.transfer payer.publicKey adminWallet (jsSub accountInfo.lamports RESERVE) with
  | .error err => ⟨w, console, .rejected err⟩
  | .ok instruction =>
    let w1 := w.addLedgerCall
      (.sendAndConfirmTransaction instruction.fromPubkey instruction.toPubkey
        instruction.lamports [payer])
    match e.transferError with
    | some err => catchBlock w1 console cronJob err
    | none =>
      match e.invoiceUpdateError with
      | some err => catchBlock w1 console cronJob err
      | none =>
        match invoiceUpdate w1 cronJob.invoiceId "paid" with
        | .error err => catchBlock w1 console cronJob err
        | .ok (invoice, w2) =>
          match e.cronJobUpdateError with
          | some err => catchBlock w2 console cronJob err
          | none =>
            match cronJobUpdate w2 t.cronJobId "completed" with
            | .error err => catchBlock w2 console cronJob err
            | .ok (_, w3) =>
              match invoice.webhookUrl with
              | none => ⟨w3, console ++ [.invoicePaid invoice.id t.cronJobId], .resolved⟩
              | some url =>
                if url = "" then
                  ⟨w3, console ++ [.invoicePaid invoice.id t.cronJobId], .resolved⟩
                else
                  let w4 := w3.addWebhookPost ⟨url, webhookPayload invoice⟩
                  match e.postError with
                  | some err => catchBlock w4 console cronJob err
                  | none => ⟨w4, console ++ [.invoicePaid invoice.id t.cronJobId], .resolved⟩

/-- The callback `scheduleCronJob` hands to `cron.schedule` (lines 52 to 115), run
once against the answers `e` of the collaborators; `adminWallet` is the outcome of
`new PublicKey(process.env.ADMIN_WALLET)` at line 60. -/
def tick (adminWallet : Except JsError PublicKey) (t : MonitorTask) (e : TickEnv) (w : World) :
    TickResult :=
  let c0 := [ConsoleLine.cronJobRunning t.cronJobId]
  match e.findUniqueError with
  | some err => ⟨w, c0, .rejected err⟩
  | none =>
    match cronJobFindUnique w t.cronJobId with
    | none => ⟨w, c0, .rejected nullStatusTypeError⟩
    | some cronJob =>
      if cronJob.status = "completed" then
        ⟨w, c0 ++ [.alreadyCompleted t.cronJobId], .resolved⟩
      else
        match adminWallet with
        | .error err => ⟨w, c0, .rejected err⟩
        | .ok admin =>
          let w1 := w.addLedgerCall (.getAccountInfo t.payerPublicKey)
          match e.accountInfo with
          | .error err => ⟨w1, c0, .rejected err⟩
          | .ok none => ⟨w1, c0, .resolved⟩
          | .ok (some accountInfo) =>
            let c1 := c0 ++ [.currentBalance t.payerPublicKey
              (jsDiv accountInfo.lamports LAMPORTS_PER_SOL)]
            if jsDiv accountInfo.lamports LAMPORTS_PER_SOL ≥ t.amount then
              sweep admin t e cronJob accountInfo w1 c1
            else
              ⟨w1, c1, .resolved⟩

/-- Successive runs of the callback of one task, each against its own answers of the
collaborators; a run starts after the previous one has ended. -/
def runTicks (adminWallet : Except JsError PublicKey) (t : MonitorTask) :
    List TickEnv → World → World
  | [], w => w
  | e :: es, w => runTicks adminWallet t es (tick adminWallet t e w).world

/-- The function `scheduleCronJob`: register the callback with the cron library. -/
def scheduleCronJob (w : World) (cronJobId : Nat) (payerPublicKey : PublicKey) (amount : ℚ)
    (webhookUrl : Option String) (privateKey : List Nat) : World :=
  { w with tasks := w.tasks ++ [⟨cronJobId, payerPublicKey, amount, webhookUrl, privateKey⟩] }

/-! ## The HTTP handlers -/

/-- The body of a response sent with `res.json`. -/
inductive Body where
  | object (o : JsonObject)
  | array (os : List JsonObject)
deriving DecidableEq, Repr

/-- An HTTP response. -/
structure Response where
  status : Nat
  body : Body
deriving DecidableEq, Repr

/-- Whether some object of the body has the property `key`. -/
def Body.hasKey (b : Body) (key : String) : Bool :=
  match b with
  | .object o => o.hasKey key
  | .array os => os.any (fun o => o.hasKey key)

/-- The store's `prisma.invoice.create`: the new row takes the next id. -/
def invoiceCreate (w : World) (amount : ℚ) (walletAddress : PublicKey) (privateKey : List Nat)
    (status : String) (webhookUrl : Option String) : Invoice × World :=
  let invoice : Invoice :=
    { id := w.invoices.length + 1, amount := amount, walletAddress := walletAddress,
      privateKey := privateKey, status := status, webhookUrl := webhookUrl }
  (invoice, { w with invoices := w.invoices ++ [invoice],
                     storeWrites := w.storeWrites ++ [.invoiceCreate invoice.id] })

/-- The store's `prisma.cronJob.create`: the new row takes the next id. -/
def cronJobCreate (w : World) (invoiceId : Nat) (processId : String) (status : String) :
    CronJob × World :=
  let job : CronJob :=
    { id := w.cronJobs.length + 1, invoiceId := invoiceId, processId := processId,
      status := status }
  (job, { w with cronJobs := w.cronJobs ++ [job],
                 storeWrites := w.storeWrites ++ [.cronJobCreate job.id] })

/-- The handler `app.post('/invoices')` (lines 15 to 49); `payer` is the key pair
`Keypair.generate()` returns. -/
def postInvoices (amount : ℚ) (webhookUrl : Option String) (payer : Keypair) (w : World) :
    Response × World :=
  let walletAddress := payer.publicKey
  let privateKey := payer.secretKey
  let (invoice, w1) := invoiceCreate w amount walletAddress privateKey "pending" webhookUrl
  let (cronJob, w2) :=
    cronJobCreate w1 invoice.id ("invoice_" ++ toString invoice.id ++ "_monitoring") "pending"
  let w3 := scheduleCronJob w2 cronJob.id payer.publicKey amount webhookUrl privateKey
  (⟨200, .object (invoice.toObject.delete "privateKey")⟩, w3)

/-- The handler `app.get('/invoices')` (lines 124 to 127). -/
def getInvoices (w : World) : Response :=
  ⟨200, .array (w.invoices.map Invoice.toObject)⟩

/-- The handler `app.get('/invoices/:id')` (lines 130 to 139), on the integer that
`parseInt` reads from the route parameter. -/
def getInvoiceById (w : World) (id : Nat) : Response :=
  match invoiceFindUnique w id with
  | none => ⟨404, .object [("error", .str "Invoice not found")]⟩
  | some invoice => ⟨200, .object invoice.toObject⟩

/-! ## Observations used by the statements -/

/-- The status of the invoice with this id, when the row exists. -/
def invoiceStatus (w : World) (id : Nat) : Option String :=
  (invoiceFindUnique w id).map (·.status)

/-- The status of the job with this id, when the row exists. -/
def cronJobStatus (w : World) (id : Nat) : Option String :=
  (cronJobFindUnique w id).map (·.status)

/-- Whether a ledger call is a transfer submission. -/
def LedgerCall.isTransfer : LedgerCall → Bool
  | .sendAndConfirmTransaction _ _ _ _ => true
  | .getAccountInfo _ => false

/-- The condition of line 68: the account record exists and its balance in SOL, the
binary64 quotient of its lamports by `LAMPORTS_PER_SOL`, is at least the requested
amount. -/
def thresholdMet (e : TickEnv) (amount : ℚ) : Bool :=
  match e.accountInfo with
  | .ok (some accountInfo) => decide (jsDiv accountInfo.lamports LAMPORTS_PER_SOL ≥ amount)
  | _ => false

/-- The account record exists and holds at least the reserve of 5000 lamports. -/
def coversReserve (e : TickEnv) : Bool :=
  match e.accountInfo with
  | .ok (some accountInfo) => decide (RESERVE ≤ accountInfo.lamports)
  | _ => false

/-- The run reaches the transfer submission of line 83: the threshold of line 68 is
met and the balance covers the reserve, so that building the instruction does not throw. -/
def sweepDue (e : TickEnv) (amount : ℚ) : Bool :=
  thresholdMet e amount && coversReserve e

/-- The transfer submission of a sweep (lines 74 to 83) for the account record read. -/
def sweepCall (adminWallet : PublicKey) (t : MonitorTask) (accountInfo : AccountInfo) :
    LedgerCall :=
  .sendAndConfirmTransaction (Keypair.fromSecretKey t.privateKey).publicKey adminWallet
    (jsSub accountInfo.lamports RESERVE) [Keypair.fromSecretKey t.privateKey]

/-- The ledger calls made during one run of the callback. -/
def callsOfTick (a : Except JsError PublicKey) (t : MonitorTask) (e : TickEnv) (w : World) :
    List LedgerCall :=
  (tick a t e w).world.ledgerCalls.drop w.ledgerCalls.length

/-- The store writes applied during one run of the callback. -/
def writesOfTick (a : Except JsError PublicKey) (t : MonitorTask) (e : TickEnv) (w : World) :
    List StoreWrite :=
  (tick a t e w).world.storeWrites.drop w.storeWrites.length

/-- The webhook posts made during one run of the callback. -/
def postsOfTick (a : Except JsError PublicKey) (t : MonitorTask) (e : TickEnv) (w : World) :
    List WebhookPost :=
  (tick a t e w).world.webhookPosts.drop w.webhookPosts.length

/-- The store shows the job `cronJobId` completed while its invoice is still pending. -/
def jobCompletedInvoicePending (w : World) (cronJobId : Nat) : Bool :=
  match cronJobFindUnique w cronJobId with
  | none => false
  | some job =>
    job.status == "completed" &&
      (match invoiceFindUnique w job.invoiceId with
       | none => false
       | some invoice => invoice.status == "pending")

/-- The store shows the invoice of the job `cronJobId` paid while the job is still
pending. -/
def invoicePaidJobPending (w : World) (cronJobId : Nat) : Bool :=
  match cronJobFindUnique w cronJobId with
  | none => false
  | some job =>
    job.status == "pending" &&
      (match invoiceFindUnique w job.invoiceId with
       | none => false
       | some invoice => invoice.status == "paid")

/-- The empty world: no rows, no calls made yet. -/
def World.empty : World := ⟨[], [], [], [], [], []⟩

/-! ## A concrete deployment, used to instantiate the statements -/

/-- A generated key pair: 32 bytes of seed followed by the 32 bytes of the public key. -/
def payerEx : Keypair := ⟨⟨List.replicate 32 9⟩, List.replicate 32 7 ++ List.replicate 32 9⟩

/-- The admin wallet of the deployment. -/
def adminEx : PublicKey := ⟨List.replicate 32 1⟩

/-- The error `new PublicKey` throws on a missing or malformed `ADMIN_WALLET`. -/
def invalidPublicKey : JsError := ⟨"Invalid public key input", none⟩

/-- The callback URL of the merchant. -/
def urlEx : String := "https://merchant.example/hook"

/-- The store after `POST /invoices` for 1 SOL on an empty store. -/
def worldEx : World :=
  { invoices := [⟨1, 1, payerEx.publicKey, payerEx.secretKey, "pending", some urlEx⟩],
    cronJobs := [⟨1, 1, "invoice_1_monitoring", "pending"⟩],
    storeWrites := [.invoiceCreate 1, .cronJobCreate 1],
    ledgerCalls := [],
    webhookPosts := [],
    tasks := [⟨1, payerEx.publicKey, 1, some urlEx, payerEx.secretKey⟩] }

/-- The task that `POST /invoices` scheduled in `worldEx`. -/
def taskEx : MonitorTask := ⟨1, payerEx.publicKey, 1, some urlEx, payerEx.secretKey⟩

/-- The JavaScript number `0.000001`: the binary64 number nearest to one millionth. -/
def amountSmall : ℚ := 4722366482869645 / 4722366482869645213696

/-- The store after `POST /invoices` for 0.000001 SOL on an empty store. -/
def worldSmall : World :=
  { invoices := [⟨1, amountSmall, payerEx.publicKey, payerEx.secretKey, "pending", some urlEx⟩],
    cronJobs := [⟨1, 1, "invoice_1_monitoring", "pending"⟩],
    storeWrites := [.invoiceCreate 1, .cronJobCreate 1],
    ledgerCalls := [],
    webhookPosts := [],
    tasks := [⟨1, payerEx.publicKey, amountSmall, some urlEx, payerEx.secretKey⟩] }

/-- The task that `POST /invoices` scheduled in `worldSmall`. -/
def taskSmall : MonitorTask := ⟨1, payerEx.publicKey, amountSmall, some urlEx, payerEx.secretKey⟩

/-- The answers of collaborators that all succeed, the account holding `l` lamports. -/
def envOk (l : Nat) : TickEnv := ⟨none, .ok (some ⟨l⟩), none, none, none, none⟩

/-- The answers of collaborators that all succeed, the account not existing yet. -/
def envUnfunded : TickEnv := ⟨none, .ok none, none, none, none, none⟩

/-- A network error. -/
def netError : JsError := ⟨"connect ECONNREFUSED", none⟩

/-! ## Binary64 arithmetic on lamports -/

theorem floorLog2Aux_le (fuel n : Nat) (h : n ≤ fuel) (hn : n ≠ 0) :
    2 ^ floorLog2Aux fuel n ≤ n := by
  induction fuel generalizing n with
  | zero => omega
  | succ fuel ih =>
    unfold floorLog2Aux
    split
    · simp; omega
    · have h2 : n / 2 ≤ fuel := by omega
      have h3 : n / 2 ≠ 0 := by omega
      have := ih (n / 2) h2 h3
      rw [pow_succ]
      omega

theorem binary64_nonneg (n d : Nat) : 0 ≤ binary64 n d := by
  unfold binary64
  split
  · exact le_refl 0
  · positivity

/-- An integer below `2 ^ 53` is a binary64 number: rounding leaves it as it is. -/
theorem binary64_exact (n : Nat) (h : n < 2 ^ 53) : binary64 n 1 = n := by
  by_cases hn : n = 0
  · simp [binary64, hn]
  · have hb := floorLog2Aux_le n n le_rfl hn
    have hb52 : floorLog2 n ≤ 52 := by
      by_contra hc
      have : 2 ^ 53 ≤ 2 ^ floorLog2 n := Nat.pow_le_pow_right (by norm_num) (by omega)
      unfold floorLog2 at this
      omega
    have hc : floorLog2 1 = 0 := by decide
    obtain ⟨k, hk⟩ : ∃ k, 52 = floorLog2 n + k := ⟨52 - floorLog2 n, by omega⟩
    have hp : (2:ℕ) ^ 53 = 2 * 2 ^ floorLog2 n * 2 ^ k := by
      rw [show 53 = 1 + floorLog2 n + k by omega, pow_add, pow_add]; ring
    have hcond : 2 ^ 53 * (1 * 2 ^ floorLog2 n) ≤ n * 2 ^ (0 + 53) := by
      have := hb
      unfold floorLog2
      simp only [one_mul, zero_add]
      rw [Nat.mul_comm]
      exact Nat.mul_le_mul_right _ this
    have hr : roundHalfEven (n * 2 ^ (0 + 53)) (2 * (1 * 2 ^ floorLog2 n)) = n * 2 ^ k := by
      unfold roundHalfEven
      simp only [zero_add, one_mul]
      have hdvd : n * 2 ^ 53 = (2 * 2 ^ floorLog2 n) * (n * 2 ^ k) := by rw [hp]; ring
      have hpos : 0 < 2 * 2 ^ floorLog2 n := by positivity
      rw [hdvd, Nat.mul_mod_right, Nat.mul_div_cancel_left _ hpos]
      simp
    simp only [binary64, hn, if_false, binary64Parts, hc, hcond, if_true, hr]
    push_cast
    have : (2:ℚ) ^ (0 + 53) = 2 * 2 ^ floorLog2 n * 2 ^ k := by
      exact_mod_cast hp
    rw [this, pow_succ]
    field_simp
    ring

/-- The difference `lamports - 5000` is negative exactly below the reserve. -/
theorem jsSub_reserve_neg_iff (l : Nat) : jsSub l RESERVE < 0 ↔ l < RESERVE := by
  unfold jsSub
  split
  · next h =>
    constructor
    · intro hneg
      exact absurd hneg (not_lt.2 (binary64_nonneg _ _))
    · intro hlt
      omega
  · next h =>
    have hlt : l < RESERVE := by omega
    have hb : RESERVE - l < 2 ^ 53 := by
      have : RESERVE - l ≤ 5000 := by simp [RESERVE]
      omega
    rw [binary64_exact _ hb]
    constructor
    · intro _; exact hlt
    · intro _
      have : 0 < RESERVE - l := by omega
      have : (0 : ℚ) < ((RESERVE - l : Nat) : ℚ) := by exact_mod_cast this
      linarith

/-- Up to `2 ^ 53` lamports the difference `lamports - 5000` is computed exactly. -/
theorem jsSub_reserve_exact (l : Nat) (h1 : RESERVE ≤ l) (h2 : l ≤ 2 ^ 53) :
    jsSub l RESERVE = (l : ℚ) - 5000 := by
  unfold jsSub
  rw [if_pos h1, binary64_exact _ (by simp only [RESERVE] at h1 ⊢; omega)]
  rw [Nat.cast_sub h1]
  simp [RESERVE]

/-- The quotient of zero lamports is zero. -/
theorem jsDiv_zero (d : Nat) : jsDiv 0 d = 0 := by
  simp [jsDiv, binary64]

/-- Building the instruction throws exactly below the reserve. -/
theorem transfer_reserve (f p : PublicKey) (l : Nat) :
    SystemProgram.transfer f p (jsSub l RESERVE) =
      if l < RESERVE then .error lamportsEncodeError else .ok ⟨f, p, jsSub l RESERVE⟩ := by
  unfold SystemProgram.transfer
  by_cases h : l < RESERVE
  · rw [if_pos ((jsSub_reserve_neg_iff l).2 h), if_pos h]
  · rw [if_neg (fun hn => h ((jsSub_reserve_neg_iff l).1 hn)), if_neg h]

/-! ## Frame lemmas for the store and the logs -/

theorem find_map_status {α : Type} (key : α → Nat) (upd : α → α) (hkey : ∀ x, key (upd x) = key x)
    (l : List α) (id id2 : Nat) :
    (l.map (fun x => if key x = id then upd x else x)).find? (fun x => key x == id2)
      = (l.find? (fun x => key x == id2)).map (fun x => if key x = id then upd x else x) := by
  induction l with
  | nil => rfl
  | cons x xs ih =>
    simp only [List.map_cons, List.find?_cons]
    have hk : key (if key x = id then upd x else x) = key x := by
      split
      · exact hkey x
      · rfl
    rw [hk]
    cases h : (key x == id2)
    · simpa using ih
    · simp

theorem find_id {α : Type} (key : α → Nat) (l : List α) (id : Nat) (x : α)
    (h : l.find? (fun y => key y == id) = some x) : key x = id := by
  have := List.find?_some h
  simpa using this

@[simp]
theorem invoiceFindUnique_addLedgerCall (w : World) (c : LedgerCall) (id : Nat) :
    invoiceFindUnique (w.addLedgerCall c) id = invoiceFindUnique w id := rfl

@[simp]
theorem cronJobFindUnique_addLedgerCall (w : World) (c : LedgerCall) (id : Nat) :
    cronJobFindUnique (w.addLedgerCall c) id = cronJobFindUnique w id := rfl

@[simp]
theorem invoiceFindUnique_addWebhookPost (w : World) (p : WebhookPost) (id : Nat) :
    invoiceFindUnique (w.addWebhookPost p) id = invoiceFindUnique w id := rfl

@[simp]
theorem cronJobFindUnique_addWebhookPost (w : World) (p : WebhookPost) (id : Nat) :
    cronJobFindUnique (w.addWebhookPost p) id = cronJobFindUnique w id := rfl

@[simp]
theorem cronJobFindUnique_setInvoiceStatus (w : World) (id : Nat) (s : String) (id2 : Nat) :
    cronJobFindUnique (w.setInvoiceStatus id s) id2 = cronJobFindUnique w id2 := rfl

@[simp]
theorem invoiceFindUnique_setCronJobStatus (w : World) (id : Nat) (s : String) (id2 : Nat) :
    invoiceFindUnique (w.setCronJobStatus id s) id2 = invoiceFindUnique w id2 := rfl

theorem invoiceFindUnique_setInvoiceStatus (w : World) (id : Nat) (s : String) (id2 : Nat) :
    invoiceFindUnique (w.setInvoiceStatus id s) id2 =
      (invoiceFindUnique w id2).map (fun i => if i.id = id then { i with status := s } else i) :=
  find_map_status (fun i : Invoice => i.id) (fun i => { i with status := s }) (fun _ => rfl)
    w.invoices id id2

theorem cronJobFindUnique_setCronJobStatus (w : World) (id : Nat) (s : String) (id2 : Nat) :
    cronJobFindUnique (w.setCronJobStatus id s) id2 =
      (cronJobFindUnique w id2).map (fun j => if j.id = id then { j with status := s } else j) :=
  find_map_status (fun j : CronJob => j.id) (fun j => { j with status := s }) (fun _ => rfl)
    w.cronJobs id id2

theorem invoiceFindUnique_id {w : World} {id : Nat} {i : Invoice}
    (h : invoiceFindUnique w id = some i) : i.id = id :=
  find_id (fun i : Invoice => i.id) w.invoices id i h

theorem cronJobFindUnique_id {w : World} {id : Nat} {j : CronJob}
    (h : cronJobFindUnique w id = some j) : j.id = id :=
  find_id (fun j : CronJob => j.id) w.cronJobs id j h

theorem catchBlock_world (w : World) (c : List ConsoleLine) (j : CronJob) (err : JsError) :
    (catchBlock w c j err).world = w := by
  unfold catchBlock; split <;> rfl

theorem catchBlock_outcome (w : World) (c : List ConsoleLine) (j : CronJob) (err : JsError) :
    (catchBlock w c j err).outcome = .resolved := by
  unfold catchBlock; split <;> rfl

/-- Below the reserve the sweep stops at line 74: it rejects, with no call made and
nothing written. -/
theorem sweep_rejects (a : PublicKey) (t : MonitorTask) (e : TickEnv) (j : CronJob)
    (ai : AccountInfo) (w : World) (c : List ConsoleLine) (h : ai.lamports < RESERVE) :
    sweep a t e j ai w c = ⟨w, c, .rejected lamportsEncodeError⟩ := by
  unfold sweep
  simp only [transfer_reserve, if_pos h]

/-- The world a sweep leaves when the balance covers the reserve, by the point at which
its `try` block stops. -/
theorem sweep_world_cases (a : PublicKey) (t : MonitorTask) (e : TickEnv) (j : CronJob)
    (ai : AccountInfo) (w : World) (c : List ConsoleLine) (hres : RESERVE ≤ ai.lamports) :
    ((sweep a t e j ai w c).world = w.addLedgerCall (sweepCall a t ai) ∧
        (e.transferError ≠ none ∨ e.invoiceUpdateError ≠ none ∨
          invoiceFindUnique w j.invoiceId = none))
    ∨ ((sweep a t e j ai w c).world =
          (w.addLedgerCall (sweepCall a t ai)).setInvoiceStatus j.invoiceId "paid" ∧
        e.transferError = none ∧ e.invoiceUpdateError = none ∧
        invoiceFindUnique w j.invoiceId ≠ none ∧
        (e.cronJobUpdateError ≠ none ∨ cronJobFindUnique w t.cronJobId = none))
    ∨ (∃ inv job, invoiceFindUnique w j.invoiceId = some inv ∧
        cronJobFindUnique w t.cronJobId = some job ∧
        e.transferError = none ∧ e.invoiceUpdateError = none ∧ e.cronJobUpdateError = none ∧
        (sweep a t e j ai w c).world =
          (match inv.webhookUrl with
           | none => ((w.addLedgerCall (sweepCall a t ai)).setInvoiceStatus j.invoiceId "paid").setCronJobStatus
                t.cronJobId "completed"
           | some url =>
             if url = "" then
               ((w.addLedgerCall (sweepCall a t ai)).setInvoiceStatus j.invoiceId "paid").setCronJobStatus
                t.cronJobId "completed"
             else
               (((w.addLedgerCall (sweepCall a t ai)).setInvoiceStatus j.invoiceId "paid").setCronJobStatus
                t.cronJobId "completed").addWebhookPost
                  ⟨url, webhookPayload { inv with status := "paid" }⟩)) := by
  unfold sweep
  simp only [transfer_reserve, if_neg (not_lt.2 hres), ← sweepCall.eq_1]
  cases hT : e.transferError with
  | some err => left; simp [catchBlock_world]
  | none =>
    cases hI : e.invoiceUpdateError with
    | some err => left; simp [catchBlock_world]
    | none =>
      cases hF : invoiceFindUnique w j.invoiceId with
      | none => left; simp [invoiceUpdate, hF, catchBlock_world]
      | some inv =>
        right
        cases hC : e.cronJobUpdateError with
        | some err => left; simp [invoiceUpdate, hF, catchBlock_world]
        | none =>
          cases hJ : cronJobFindUnique w t.cronJobId with
          | none => left; simp [invoiceUpdate, cronJobUpdate, hF, hJ, catchBlock_world]
          | some job =>
            right
            refine ⟨inv, job, rfl, rfl, rfl, rfl, rfl, ?_⟩
            simp only [invoiceUpdate, cronJobUpdate, hF, hJ, invoiceFindUnique_addLedgerCall,
              cronJobFindUnique_setInvoiceStatus, cronJobFindUnique_addLedgerCall]
            cases hU : inv.webhookUrl with
            | none => simp
            | some url =>
              by_cases hu : url = ""
              · simp [hu]
              · simp only [hu, if_false]
                cases hP : e.postError with
                | some err => simp [catchBlock_world]
                | none => simp

/-- A sweep whose balance covers the reserve ends normally, whatever the transfer, the
store writes and the post do. -/
theorem sweep_outcome (a : PublicKey) (t : MonitorTask) (e : TickEnv) (j : CronJob)
    (ai : AccountInfo) (w : World) (c : List ConsoleLine) (hres : RESERVE ≤ ai.lamports) :
    (sweep a t e j ai w c).outcome = .resolved := by
  unfold sweep
  simp only [transfer_reserve, if_neg (not_lt.2 hres)]
  repeat' split
  all_goals first | rfl | exact catchBlock_outcome _ _ _ _

theorem thresholdMet_iff (e : TickEnv) (amount : ℚ) :
    thresholdMet e amount = true ↔
      ∃ ai, e.accountInfo = .ok (some ai) ∧ jsDiv ai.lamports LAMPORTS_PER_SOL ≥ amount := by
  unfold thresholdMet
  split
  · next ai h => simp [h]
  · next h =>
    constructor
    · intro hf; cases hf
    · rintro ⟨ai, hai, _⟩
      exact absurd hai (h ai)

theorem sweepDue_iff (e : TickEnv) (amount : ℚ) :
    sweepDue e amount = true ↔
      ∃ ai, e.accountInfo = .ok (some ai) ∧ jsDiv ai.lamports LAMPORTS_PER_SOL ≥ amount ∧
        RESERVE ≤ ai.lamports := by
  unfold sweepDue thresholdMet coversReserve
  split
  · next ai h => simp [h]
  · next h =>
    constructor
    · intro hf; simp at hf
    · rintro ⟨ai, hai, _⟩
      exact absurd hai (h ai)

theorem sweepDue_false_of_threshold (e : TickEnv) (amount : ℚ)
    (h : thresholdMet e amount = false) : sweepDue e amount = false := by
  simp [sweepDue, h]

/-- A run whose job lookup throws rejects and changes nothing. -/
theorem tick_findError (a : Except JsError PublicKey) (t : MonitorTask) (e : TickEnv) (w : World)
    (err : JsError) (h : e.findUniqueError = some err) :
    tick a t e w = ⟨w, [.cronJobRunning t.cronJobId], .rejected err⟩ := by
  simp [tick, h]

/-- A run whose job lookup finds no row rejects and changes nothing. -/
theorem tick_noJob (a : Except JsError PublicKey) (t : MonitorTask) (e : TickEnv) (w : World)
    (h : e.findUniqueError = none) (hj : cronJobFindUnique w t.cronJobId = none) :
    tick a t e w = ⟨w, [.cronJobRunning t.cronJobId], .rejected nullStatusTypeError⟩ := by
  simp [tick, h, hj]

/-- A run that reads the job as completed returns at line 57. -/
theorem tick_completed (a : Except JsError PublicKey) (t : MonitorTask) (e : TickEnv) (w : World)
    (job : CronJob) (h : e.findUniqueError = none)
    (hj : cronJobFindUnique w t.cronJobId = some job) (hs : job.status = "completed") :
    tick a t e w =
      ⟨w, [.cronJobRunning t.cronJobId, .alreadyCompleted t.cronJobId], .resolved⟩ := by
  simp [tick, h, hj, hs]

/-- A run for a pending job whose admin wallet is not a valid address rejects at line
60, before any ledger call. -/
theorem tick_badAdmin (t : MonitorTask) (e : TickEnv) (w : World) (job : CronJob)
    (err : JsError) (h : e.findUniqueError = none)
    (hj : cronJobFindUnique w t.cronJobId = some job) (hs : job.status ≠ "completed") :
    tick (.error err) t e w = ⟨w, [.cronJobRunning t.cronJobId], .rejected err⟩ := by
  simp [tick, h, hj, hs]

/-- A run whose balance read throws rejects after the read. -/
theorem tick_readError (a : PublicKey) (t : MonitorTask) (e : TickEnv) (w : World) (job : CronJob)
    (err : JsError)
    (h : e.findUniqueError = none) (hj : cronJobFindUnique w t.cronJobId = some job)
    (hs : job.status ≠ "completed") (hr : e.accountInfo = .error err) :
    tick (.ok a) t e w = ⟨w.addLedgerCall (.getAccountInfo t.payerPublicKey),
      [.cronJobRunning t.cronJobId], .rejected err⟩ := by
  simp [tick, h, hj, hs, hr]

/-- A run that reads a missing account or a balance below the amount only reads. -/
theorem tick_below (a : PublicKey) (t : MonitorTask) (e : TickEnv) (w : World) (job : CronJob)
    (h : e.findUniqueError = none) (hj : cronJobFindUnique w t.cronJobId = some job)
    (hs : job.status ≠ "completed") (hr : ∃ r, e.accountInfo = .ok r)
    (hm : thresholdMet e t.amount = false) :
    (tick (.ok a) t e w).world = w.addLedgerCall (.getAccountInfo t.payerPublicKey) ∧
      (tick (.ok a) t e w).outcome = .resolved := by
  obtain ⟨r, hr⟩ := hr
  cases r with
  | none => simp [tick, h, hj, hs, hr]
  | some ai =>
    have hlt : ¬ (jsDiv ai.lamports LAMPORTS_PER_SOL ≥ t.amount) := by
      simpa [thresholdMet, hr] using hm
    simp [tick, h, hj, hs, hr, hlt]

/-- A run that reads a balance at or above the amount runs the sweep. -/
theorem tick_sweep (a : PublicKey) (t : MonitorTask) (e : TickEnv) (w : World) (job : CronJob)
    (ai : AccountInfo)
    (h : e.findUniqueError = none) (hj : cronJobFindUnique w t.cronJobId = some job)
    (hs : job.status ≠ "completed") (hr : e.accountInfo = .ok (some ai))
    (hm : jsDiv ai.lamports LAMPORTS_PER_SOL ≥ t.amount) :
    tick (.ok a) t e w = sweep a t e job ai (w.addLedgerCall (.getAccountInfo t.payerPublicKey))
      [.cronJobRunning t.cronJobId,
       .currentBalance t.payerPublicKey (jsDiv ai.lamports LAMPORTS_PER_SOL)] := by
  simp [tick, h, hj, hs, hr, hm]

/-- A run that meets the threshold on a balance below the reserve rejects at line 74,
after the balance read: no transfer is submitted and nothing is written. -/
theorem tick_underReserve (a : PublicKey) (t : MonitorTask) (e : TickEnv) (w : World)
    (job : CronJob) (ai : AccountInfo)
    (h : e.findUniqueError = none) (hj : cronJobFindUnique w t.cronJobId = some job)
    (hs : job.status ≠ "completed") (hr : e.accountInfo = .ok (some ai))
    (hm : jsDiv ai.lamports LAMPORTS_PER_SOL ≥ t.amount) (hlt : ai.lamports < RESERVE) :
    tick (.ok a) t e w = ⟨w.addLedgerCall (.getAccountInfo t.payerPublicKey),
      [.cronJobRunning t.cronJobId,
       .currentBalance t.payerPublicKey (jsDiv ai.lamports LAMPORTS_PER_SOL)],
      .rejected lamportsEncodeError⟩ := by
  rw [tick_sweep a t e w job ai h hj hs hr hm, sweep_rejects a t e job ai _ _ hlt]

/-- The paths of one run of the callback. -/
theorem tick_cases (a : Except JsError PublicKey) (t : MonitorTask) (e : TickEnv) (w : World) :
    ((tick a t e w).world = w ∧
        (e.findUniqueError ≠ none ∨ cronJobFindUnique w t.cronJobId = none ∨
          cronJobStatus w t.cronJobId = some "completed" ∨ ∃ err, a = .error err))
    ∨ (∃ job admin, e.findUniqueError = none ∧ cronJobFindUnique w t.cronJobId = some job ∧
        job.status ≠ "completed" ∧ a = .ok admin ∧ sweepDue e t.amount = false ∧
        (tick a t e w).world = w.addLedgerCall (.getAccountInfo t.payerPublicKey))
    ∨ (∃ job admin ai, e.findUniqueError = none ∧ cronJobFindUnique w t.cronJobId = some job ∧
        job.status ≠ "completed" ∧ a = .ok admin ∧ e.accountInfo = .ok (some ai) ∧
        jsDiv ai.lamports LAMPORTS_PER_SOL ≥ t.amount ∧ RESERVE ≤ ai.lamports ∧
        tick a t e w = sweep admin t e job ai
          (w.addLedgerCall (.getAccountInfo t.payerPublicKey))
          [.cronJobRunning t.cronJobId,
           .currentBalance t.payerPublicKey (jsDiv ai.lamports LAMPORTS_PER_SOL)]) := by
  cases h : e.findUniqueError with
  | some err => left; simp [tick_findError a t e w err h]
  | none =>
    cases hj : cronJobFindUnique w t.cronJobId with
    | none => left; simp [tick_noJob a t e w h hj]
    | some job =>
      by_cases hs : job.status = "completed"
      · left; simp [tick_completed a t e w job h hj hs, cronJobStatus, hj, hs]
      · cases a with
        | error err =>
          left
          rw [tick_badAdmin t e w job err h hj hs]
          exact ⟨rfl, Or.inr (Or.inr (Or.inr ⟨err, rfl⟩))⟩
        | ok admin =>
          right
          cases hr : e.accountInfo with
          | error err =>
            left
            refine ⟨job, admin, rfl, rfl, hs, rfl, by simp [sweepDue, thresholdMet, hr], ?_⟩
            rw [tick_readError admin t e w job err h hj hs hr]
          | ok r =>
            cases hm : thresholdMet e t.amount with
            | false =>
              left
              exact ⟨job, admin, rfl, rfl, hs, rfl, sweepDue_false_of_threshold e t.amount hm,
                (tick_below admin t e w job h hj hs ⟨r, hr⟩ hm).1⟩
            | true =>
              obtain ⟨ai, hai, hge⟩ := (thresholdMet_iff e t.amount).1 hm
              rw [hr] at hai
              injection hai with hai
              subst hai
              by_cases hres : RESERVE ≤ ai.lamports
              · right
                exact ⟨job, admin, ai, rfl, rfl, hs, rfl, rfl, hge, hres,
                  tick_sweep admin t e w job ai h hj hs hr hge⟩
              · left
                refine ⟨job, admin, rfl, rfl, hs, rfl, ?_, ?_⟩
                · simp [sweepDue, coversReserve, hr, hres]
                · rw [tick_underReserve admin t e w job ai h hj hs hr hge (by omega)]

/-! ## Consequences of the path lemmas -/

theorem drop_length_append {α : Type} (l m : List α) : (l ++ m).drop l.length = m := by
  simp

/-- Every run appends to the ledger's calls: nothing when it stops before line 61, the
balance read alone when no transfer is due, and the balance read followed by the
transfer submission when the threshold is met on a balance that covers the reserve. -/
theorem tick_ledgerCalls (a : Except JsError PublicKey) (t : MonitorTask) (e : TickEnv)
    (w : World) :
    (tick a t e w).world.ledgerCalls = w.ledgerCalls ++ callsOfTick a t e w ∧
    ((callsOfTick a t e w = [] ∧
        (e.findUniqueError ≠ none ∨ cronJobFindUnique w t.cronJobId = none ∨
          cronJobStatus w t.cronJobId = some "completed" ∨ ∃ err, a = .error err)) ∨
      (callsOfTick a t e w = [.getAccountInfo t.payerPublicKey] ∧
        sweepDue e t.amount = false) ∨
      ∃ admin ai, a = .ok admin ∧ e.accountInfo = .ok (some ai) ∧
        jsDiv ai.lamports LAMPORTS_PER_SOL ≥ t.amount ∧ RESERVE ≤ ai.lamports ∧
        callsOfTick a t e w = [.getAccountInfo t.payerPublicKey, sweepCall admin t ai]) := by
  have key : ∀ new, (tick a t e w).world.ledgerCalls = w.ledgerCalls ++ new →
      callsOfTick a t e w = new := by
    intro new h
    unfold callsOfTick
    rw [h, drop_length_append]
  have hs : ∀ (admin : PublicKey) (j : CronJob) (ai : AccountInfo) (w1 : World)
      (c : List ConsoleLine), RESERVE ≤ ai.lamports →
      (sweep admin t e j ai w1 c).world.ledgerCalls = w1.ledgerCalls ++ [sweepCall admin t ai] := by
    intro admin j ai w1 c hres
    rcases sweep_world_cases admin t e j ai w1 c hres with
      ⟨h, _⟩ | ⟨h, _⟩ | ⟨inv, job, _, _, _, _, _, h⟩
    · rw [h]; rfl
    · rw [h]; rfl
    · rw [h]
      split
      · rfl
      · split <;> rfl
  rcases tick_cases a t e w with ⟨h, hwhy⟩ | ⟨job, admin, _, _, _, _, hm, h⟩ |
    ⟨job, admin, ai, _, _, _, ha, hr, hge, hres, h⟩
  · have hc := key [] (by rw [h]; simp)
    exact ⟨by rw [hc, h]; simp, Or.inl ⟨hc, hwhy⟩⟩
  · have hc := key [.getAccountInfo t.payerPublicKey] (by rw [h]; rfl)
    exact ⟨by rw [hc, h]; rfl, Or.inr (Or.inl ⟨hc, hm⟩)⟩
  · have hl : (tick a t e w).world.ledgerCalls =
        w.ledgerCalls ++ [.getAccountInfo t.payerPublicKey, sweepCall admin t ai] := by
      rw [h, hs admin job ai _ _ hres]
      simp [World.addLedgerCall]
    have hc := key _ hl
    exact ⟨by rw [hc, hl], Or.inr (Or.inr ⟨admin, ai, ha, hr, hge, hres, hc⟩)⟩

/-- A run in which no transfer is due leaves the store and the webhook endpoint as they
were and submits no transfer. -/
theorem tick_quiet (a : Except JsError PublicKey) (t : MonitorTask) (e : TickEnv) (w : World)
    (hm : sweepDue e t.amount = false) :
    (tick a t e w).world.invoices = w.invoices ∧ (tick a t e w).world.cronJobs = w.cronJobs ∧
    (tick a t e w).world.storeWrites = w.storeWrites ∧
    (tick a t e w).world.webhookPosts = w.webhookPosts ∧
    (tick a t e w).world.tasks = w.tasks ∧
    (tick a t e w).world.ledgerCalls.filter LedgerCall.isTransfer =
      w.ledgerCalls.filter LedgerCall.isTransfer := by
  rcases tick_cases a t e w with ⟨h, _⟩ | ⟨job, admin, _, _, _, _, _, h⟩ |
    ⟨job, admin, ai, _, _, _, _, hr, hge, hres, _⟩
  · rw [h]; simp
  · rw [h]; simp [World.addLedgerCall, LedgerCall.isTransfer]
  · have : sweepDue e t.amount = true := (sweepDue_iff e t.amount).2 ⟨ai, hr, hge, hres⟩
    rw [hm] at this
    cases this

/-- A run on a store that shows the job completed changes nothing. -/
theorem tick_world_of_completed (a : Except JsError PublicKey) (t : MonitorTask) (e : TickEnv)
    (w : World) (h : cronJobStatus w t.cronJobId = some "completed") :
    (tick a t e w).world = w := by
  rcases tick_cases a t e w with ⟨h1, _⟩ | ⟨job, _, _, hj, hs, _, _, _⟩ |
    ⟨job, _, ai, _, hj, hs, _, _, _, _, _⟩
  · exact h1
  · simp [cronJobStatus, hj] at h; exact absurd h hs
  · simp [cronJobStatus, hj] at h; exact absurd h hs

theorem runTicks_append (a : Except JsError PublicKey) (t : MonitorTask) (es fs : List TickEnv)
    (w : World) :
    runTicks a t (es ++ fs) w = runTicks a t fs (runTicks a t es w) := by
  induction es generalizing w with
  | nil => rfl
  | cons e es ih => simp [runTicks, ih]

/-- Once the store shows the job completed, no number of further runs changes anything. -/
theorem runTicks_of_completed (a : Except JsError PublicKey) (t : MonitorTask)
    (es : List TickEnv) (w : World)
    (h : cronJobStatus w t.cronJobId = some "completed") : runTicks a t es w = w := by
  induction es with
  | nil => rfl
  | cons e es ih => simp [runTicks, tick_world_of_completed a t e w h, ih]

/-- Runs in which no transfer is due leave the store and the webhook endpoint as they
were and submit no transfer. -/
theorem runTicks_quiet (a : Except JsError PublicKey) (t : MonitorTask) (es : List TickEnv)
    (w : World) (hm : ∀ e ∈ es, sweepDue e t.amount = false) :
    (runTicks a t es w).invoices = w.invoices ∧ (runTicks a t es w).cronJobs = w.cronJobs ∧
    (runTicks a t es w).storeWrites = w.storeWrites ∧
    (runTicks a t es w).webhookPosts = w.webhookPosts ∧
    (runTicks a t es w).tasks = w.tasks ∧
    (runTicks a t es w).ledgerCalls.filter LedgerCall.isTransfer =
      w.ledgerCalls.filter LedgerCall.isTransfer := by
  induction es generalizing w with
  | nil => simp [runTicks]
  | cons e es ih =>
    have hq := tick_quiet a t e w (hm e (List.mem_cons_self e es))
    have hi := ih (tick a t e w).world (fun e2 h2 => hm e2 (List.mem_cons_of_mem e h2))
    simp only [runTicks]
    obtain ⟨h1, h2, h3, h4, h5, h6⟩ := hq
    obtain ⟨i1, i2, i3, i4, i5, i6⟩ := hi
    exact ⟨i1.trans h1, i2.trans h2, i3.trans h3, i4.trans h4, i5.trans h5, i6.trans h6⟩

/-- The world after a sweep whose transfer is confirmed and whose two store writes
succeed, for an invoice with a callback URL. -/
theorem tick_settles (a : PublicKey) (t : MonitorTask) (e : TickEnv) (w : World) (job : CronJob)
    (inv : Invoice) (ai : AccountInfo) (url : String)
    (h : e.findUniqueError = none) (hj : cronJobFindUnique w t.cronJobId = some job)
    (hs : job.status ≠ "completed") (hi : invoiceFindUnique w job.invoiceId = some inv)
    (hu : inv.webhookUrl = some url) (hne : url ≠ "")
    (hr : e.accountInfo = .ok (some ai))
    (hm : jsDiv ai.lamports LAMPORTS_PER_SOL ≥ t.amount) (hres : RESERVE ≤ ai.lamports)
    (hT : e.transferError = none) (hI : e.invoiceUpdateError = none)
    (hC : e.cronJobUpdateError = none) :
    (tick (.ok a) t e w).world =
      ((((w.addLedgerCall (.getAccountInfo t.payerPublicKey)).addLedgerCall
          (sweepCall a t ai)).setInvoiceStatus job.invoiceId "paid").setCronJobStatus
            t.cronJobId "completed").addWebhookPost
              ⟨url, webhookPayload { inv with status := "paid" }⟩ ∧
    (tick (.ok a) t e w).outcome = .resolved := by
  rw [tick_sweep a t e w job ai h hj hs hr hm]
  refine ⟨?_, sweep_outcome _ _ _ _ _ _ _ hres⟩
  rcases sweep_world_cases a t e job ai (w.addLedgerCall (.getAccountInfo t.payerPublicKey))
    [.cronJobRunning t.cronJobId,
      .currentBalance t.payerPublicKey (jsDiv ai.lamports LAMPORTS_PER_SOL)] hres with
    ⟨_, h1 | h1 | h1⟩ | ⟨_, _, _, _, h1 | h1⟩ | ⟨inv2, job2, hi2, _, _, _, _, hw⟩
  · exact absurd hT h1
  · exact absurd hI h1
  · simp [hi] at h1
  · exact absurd hC h1
  · simp [hj] at h1
  · simp only [invoiceFindUnique_addLedgerCall, hi] at hi2
    injection hi2 with hi2
    subst hi2
    rw [hw]
    simp [hu, hne]

/-- After a settling run the invoice reads paid and the job reads completed. -/
theorem settled_status (w : World) (cronJobId : Nat) (job : CronJob) (inv : Invoice)
    (hj : cronJobFindUnique w cronJobId = some job)
    (hi : invoiceFindUnique w job.invoiceId = some inv) (p : WebhookPost) :
    invoiceStatus (((w.setInvoiceStatus job.invoiceId "paid").setCronJobStatus
        cronJobId "completed").addWebhookPost p) job.invoiceId = some "paid" ∧
    cronJobStatus (((w.setInvoiceStatus job.invoiceId "paid").setCronJobStatus
        cronJobId "completed").addWebhookPost p) cronJobId = some "completed" := by
  have h1 := invoiceFindUnique_id hi
  have h2 := cronJobFindUnique_id hj
  constructor
  · simp [invoiceStatus, invoiceFindUnique_setInvoiceStatus, hi, h1]
  · simp [cronJobStatus, cronJobFindUnique_setCronJobStatus, hj, h2]

/-- The world after a sweep whose transfer is confirmed and whose invoice update is
applied, when the cronJob update throws. -/
theorem tick_jobWrite_fails (a : PublicKey) (t : MonitorTask) (e : TickEnv) (w : World)
    (job : CronJob) (inv : Invoice) (ai : AccountInfo) (err : JsError)
    (h : e.findUniqueError = none) (hj : cronJobFindUnique w t.cronJobId = some job)
    (hs : job.status ≠ "completed") (hi : invoiceFindUnique w job.invoiceId = some inv)
    (hr : e.accountInfo = .ok (some ai))
    (hm : jsDiv ai.lamports LAMPORTS_PER_SOL ≥ t.amount) (hres : RESERVE ≤ ai.lamports)
    (hT : e.transferError = none) (hI : e.invoiceUpdateError = none)
    (hC : e.cronJobUpdateError = some err) :
    (tick (.ok a) t e w).world =
      ((w.addLedgerCall (.getAccountInfo t.payerPublicKey)).addLedgerCall
        (sweepCall a t ai)).setInvoiceStatus job.invoiceId "paid" := by
  rw [tick_sweep a t e w job ai h hj hs hr hm]
  rcases sweep_world_cases a t e job ai (w.addLedgerCall (.getAccountInfo t.payerPublicKey))
    [.cronJobRunning t.cronJobId, .currentBalance t.payerPublicKey
      (jsDiv ai.lamports LAMPORTS_PER_SOL)] hres with
    ⟨_, h1 | h1 | h1⟩ | ⟨hw, _⟩ | ⟨_, _, _, _, _, _, h1, _⟩
  · exact absurd hT h1
  · exact absurd hI h1
  · simp [hi] at h1
  · exact hw
  · rw [hC] at h1; cases h1

/-- Every run applies no store write, or only the invoice update, or the invoice update
followed by the job update; a write is applied only in a run that submitted a transfer
and had it confirmed. -/
theorem tick_storeWrites (a : Except JsError PublicKey) (t : MonitorTask) (e : TickEnv)
    (w : World) :
    writesOfTick a t e w = [] ∨
    (∃ job admin ai, cronJobFindUnique w t.cronJobId = some job ∧ e.transferError = none ∧
      a = .ok admin ∧ e.accountInfo = .ok (some ai) ∧
      callsOfTick a t e w = [.getAccountInfo t.payerPublicKey, sweepCall admin t ai] ∧
      (writesOfTick a t e w = [.invoiceUpdate job.invoiceId "paid"] ∨
       writesOfTick a t e w =
        [.invoiceUpdate job.invoiceId "paid", .cronJobUpdate t.cronJobId "completed"])) := by
  have key : ∀ new, (tick a t e w).world.storeWrites = w.storeWrites ++ new →
      writesOfTick a t e w = new := by
    intro new h
    unfold writesOfTick
    rw [h, drop_length_append]
  rcases tick_cases a t e w with ⟨h, _⟩ | ⟨job, admin, _, _, _, _, _, h⟩ |
    ⟨job, admin, ai, hf, hj, hs, ha, hr, hge, hres, h⟩
  · left; exact key [] (by rw [h]; simp)
  · left; exact key [] (by rw [h]; simp [World.addLedgerCall])
  · have hcalls : callsOfTick a t e w =
        [.getAccountInfo t.payerPublicKey, sweepCall admin t ai] := by
      rcases (tick_ledgerCalls a t e w).2 with ⟨_, h1 | h1 | h1 | ⟨err, h1⟩⟩ | ⟨_, h1⟩ |
        ⟨admin2, ai2, ha2, hr2, _, _, h1⟩
      · exact absurd hf h1
      · rw [hj] at h1; cases h1
      · simp [cronJobStatus, hj] at h1; exact absurd h1 hs
      · rw [ha] at h1; cases h1
      · have : sweepDue e t.amount = true := (sweepDue_iff e t.amount).2 ⟨ai, hr, hge, hres⟩
        rw [h1] at this; cases this
      · rw [hr] at hr2
        injection hr2 with hr2
        injection hr2 with hr2
        subst hr2
        rw [ha] at ha2
        injection ha2 with ha2
        subst ha2
        exact h1
    rcases sweep_world_cases admin t e job ai
      (w.addLedgerCall (.getAccountInfo t.payerPublicKey))
      [.cronJobRunning t.cronJobId, .currentBalance t.payerPublicKey
        (jsDiv ai.lamports LAMPORTS_PER_SOL)] hres with
      ⟨hw, _⟩ | ⟨hw, hT, _⟩ | ⟨inv, job2, _, _, hT, _, _, hw⟩
    · left
      exact key [] (by rw [h, hw]; simp [World.addLedgerCall])
    · right
      exact ⟨job, admin, ai, hj, hT, ha, hr, hcalls, Or.inl (key _ (by rw [h, hw]; rfl))⟩
    · right
      refine ⟨job, admin, ai, hj, hT, ha, hr, hcalls, Or.inr (key _ ?_)⟩
      rw [h, hw]
      (repeat' split) <;>
        simp [World.addLedgerCall, World.setInvoiceStatus, World.setCronJobStatus,
          World.addWebhookPost]

/-! ## Values of the concrete deployment -/

theorem amountSmall_eq : binary64 1 1000000 = amountSmall := by
  rw [binary64, if_neg (by decide)]
  rw [show binary64Parts 1 1000000 = ⟨4722366482869645, 0, 72⟩ from by decide]
  norm_num [amountSmall]

theorem jsDiv_4000 : jsDiv 4000 LAMPORTS_PER_SOL = 4722366482869645 / 1180591620717411303424 := by
  rw [jsDiv, binary64, if_neg (by decide)]
  rw [show binary64Parts 4000 LAMPORTS_PER_SOL = ⟨4722366482869645, 12, 82⟩ from by decide]
  norm_num

theorem jsDiv_5000 : jsDiv 5000 LAMPORTS_PER_SOL = 5902958103587057 / 1180591620717411303424 := by
  rw [jsDiv, binary64, if_neg (by decide)]
  rw [show binary64Parts 5000 LAMPORTS_PER_SOL = ⟨5902958103587057, 12, 82⟩ from by decide]
  norm_num

theorem jsDiv_5001 : jsDiv 5001 LAMPORTS_PER_SOL = 2952069347603887 / 590295810358705651712 := by
  rw [jsDiv, binary64, if_neg (by decide)]
  rw [show binary64Parts 5001 LAMPORTS_PER_SOL = ⟨5904138695207774, 12, 82⟩ from by decide]
  norm_num

theorem jsDiv_2e9 : jsDiv 2000000000 LAMPORTS_PER_SOL = 2 := by
  rw [jsDiv, binary64, if_neg (by decide)]
  rw [show binary64Parts 2000000000 LAMPORTS_PER_SOL = ⟨2 ^ 52, 31, 82⟩ from by decide]
  norm_num

theorem jsDiv_1e9 : jsDiv 1000000000 LAMPORTS_PER_SOL = 1 := by
  rw [jsDiv, binary64, if_neg (by decide)]
  rw [show binary64Parts 1000000000 LAMPORTS_PER_SOL = ⟨2 ^ 52, 30, 82⟩ from by decide]
  norm_num

theorem jsDiv_1000005000 :
    jsDiv 1000005000 LAMPORTS_PER_SOL = 4503622145368633 / 4503599627370496 := by
  rw [jsDiv, binary64, if_neg (by decide)]
  rw [show binary64Parts 1000005000 LAMPORTS_PER_SOL = ⟨4503622145368633, 30, 82⟩ from by decide]
  norm_num

theorem jsDiv_2pow57 : jsDiv (2 ^ 57) LAMPORTS_PER_SOL = 4835703278458517 / 33554432 := by
  rw [jsDiv, binary64, if_neg (by decide)]
  rw [show binary64Parts (2 ^ 57) LAMPORTS_PER_SOL = ⟨4835703278458517, 57, 82⟩ from by decide]
  norm_num

theorem jsSub_2pow57 : jsSub (2 ^ 57) RESERVE = 144115188075850880 := by
  rw [jsSub, if_pos (by decide), binary64, if_neg (by decide)]
  rw [show binary64Parts (2 ^ 57 - RESERVE) 1 = ⟨9007199254740680, 57, 53⟩ from by decide]
  norm_num

/-- The quotient of 5000 lamports is the number `0.000005`, the binary64 number nearest
to five millionths, which lies above five millionths. -/
theorem jsDiv_5000_eq : jsDiv 5000 LAMPORTS_PER_SOL = binary64 5 1000000 ∧
    (5 : ℚ) / 1000000 < jsDiv 5000 LAMPORTS_PER_SOL := by
  constructor
  · rw [jsDiv_5000, binary64, if_neg (by decide)]
    rw [show binary64Parts 5 1000000 = ⟨5902958103587057, 2, 72⟩ from by decide]
    norm_num
  · rw [jsDiv_5000]; norm_num

/-- The quotient of 9000000000000001 lamports is the number `9000000.000000002`. -/
theorem jsDiv_9e15 : jsDiv 9000000000000001 LAMPORTS_PER_SOL =
    binary64 9000000000000002 1000000000 ∧
    (9000000000000001 : ℚ) / 1000000000 < jsDiv 9000000000000001 LAMPORTS_PER_SOL := by
  have h1 : jsDiv 9000000000000001 LAMPORTS_PER_SOL = 4831838208000001 / 536870912 := by
    rw [jsDiv, binary64, if_neg (by decide)]
    rw [show binary64Parts 9000000000000001 LAMPORTS_PER_SOL =
      ⟨4831838208000001, 53, 82⟩ from by decide]
    norm_num
  constructor
  · rw [h1, binary64, if_neg (by decide)]
    rw [show binary64Parts 9000000000000002 1000000000 =
      ⟨4831838208000001, 53, 82⟩ from by decide]
    norm_num
  · rw [h1]; norm_num

/-- The ledger calls of a run that sweeps: the balance read and the transfer submission. -/
theorem callsOfTick_sweep (a : PublicKey) (t : MonitorTask) (e : TickEnv) (w : World)
    (job : CronJob) (ai : AccountInfo)
    (h : e.findUniqueError = none) (hj : cronJobFindUnique w t.cronJobId = some job)
    (hs : job.status ≠ "completed") (hr : e.accountInfo = .ok (some ai))
    (hm : jsDiv ai.lamports LAMPORTS_PER_SOL ≥ t.amount) (hres : RESERVE ≤ ai.lamports) :
    callsOfTick (.ok a) t e w = [.getAccountInfo t.payerPublicKey, sweepCall a t ai] := by
  rcases (tick_ledgerCalls (.ok a) t e w).2 with ⟨_, h1 | h1 | h1 | ⟨err, h1⟩⟩ | ⟨_, h1⟩ |
    ⟨admin2, ai2, ha2, hr2, _, _, h1⟩
  · exact absurd h h1
  · rw [hj] at h1; cases h1
  · simp [cronJobStatus, hj] at h1; exact absurd h1 hs
  · cases h1
  · have : sweepDue e t.amount = true := (sweepDue_iff e t.amount).2 ⟨ai, hr, hm, hres⟩
    rw [h1] at this; cases this
  · rw [hr] at hr2
    injection hr2 with hr2
    injection hr2 with hr2
    subst hr2
    injection ha2 with ha2
    subst ha2
    exact h1

/-- After a sweep whose transfer is confirmed and whose two store writes succeed, the
invoice reads paid and the job completed, whether or not the invoice has a callback URL. -/
theorem tick_settles_status (a : PublicKey) (t : MonitorTask) (e : TickEnv) (w : World)
    (job : CronJob) (inv : Invoice) (ai : AccountInfo)
    (h : e.findUniqueError = none) (hj : cronJobFindUnique w t.cronJobId = some job)
    (hs : job.status ≠ "completed") (hi : invoiceFindUnique w job.invoiceId = some inv)
    (hr : e.accountInfo = .ok (some ai))
    (hm : jsDiv ai.lamports LAMPORTS_PER_SOL ≥ t.amount) (hres : RESERVE ≤ ai.lamports)
    (hT : e.transferError = none) (hI : e.invoiceUpdateError = none)
    (hC : e.cronJobUpdateError = none) :
    invoiceStatus (tick (.ok a) t e w).world job.invoiceId = some "paid" ∧
    cronJobStatus (tick (.ok a) t e w).world t.cronJobId = some "completed" := by
  rw [tick_sweep a t e w job ai h hj hs hr hm]
  rcases sweep_world_cases a t e job ai (w.addLedgerCall (.getAccountInfo t.payerPublicKey))
    [.cronJobRunning t.cronJobId, .currentBalance t.payerPublicKey
      (jsDiv ai.lamports LAMPORTS_PER_SOL)] hres with
    ⟨_, h1 | h1 | h1⟩ | ⟨_, _, _, _, h1 | h1⟩ | ⟨inv2, job2, hi2, _, _, _, _, hw⟩
  · exact absurd hT h1
  · exact absurd hI h1
  · simp [hi] at h1
  · exact absurd hC h1
  · simp [hj] at h1
  · rw [hw]
    have h1 := invoiceFindUnique_id hi
    have h2 := cronJobFindUnique_id hj
    (repeat' split) <;>
      simp [invoiceStatus, cronJobStatus, invoiceFindUnique_setInvoiceStatus,
        cronJobFindUnique_setCronJobStatus, hi, hj, h1, h2]

/-! ## C1: a run that reads the job as completed does nothing -/

/-- C1. When the job row re-read from the store has status completed, the run makes no
ledger call, applies no store write and makes no webhook post: the state of the store,
of the ledger and of the webhook endpoint after the run is the state before it, and the
callback ends normally. -/
theorem completed_tick_is_noop (a : Except JsError PublicKey) (t : MonitorTask) (e : TickEnv)
    (w : World) (job : CronJob) (hfind : e.findUniqueError = none)
    (hjob : cronJobFindUnique w t.cronJobId = some job) (hstatus : job.status = "completed") :
    (tick a t e w).world = w ∧ callsOfTick a t e w = [] ∧ writesOfTick a t e w = [] ∧
      postsOfTick a t e w = [] ∧ (tick a t e w).outcome = .resolved := by
  have h := tick_completed a t e w job hfind hjob hstatus
  simp [callsOfTick, writesOfTick, postsOfTick, h]

/-- The store of `worldEx` after its invoice was settled. -/
theorem completed_tick_is_noop_witness :
    (envOk 2000000000).findUniqueError = none ∧
    cronJobFindUnique (worldEx.setCronJobStatus 1 "completed") taskEx.cronJobId =
      some ⟨1, 1, "invoice_1_monitoring", "completed"⟩ ∧
    (tick (.ok adminEx) taskEx (envOk 2000000000)
      (worldEx.setCronJobStatus 1 "completed")).world =
      worldEx.setCronJobStatus 1 "completed" ∧
    callsOfTick (.ok adminEx) taskEx (envOk 2000000000)
      (worldEx.setCronJobStatus 1 "completed") = [] :=
  have h := completed_tick_is_noop (.ok adminEx) taskEx (envOk 2000000000)
    (worldEx.setCronJobStatus 1 "completed") ⟨1, 1, "invoice_1_monitoring", "completed"⟩
    rfl rfl rfl
  ⟨rfl, rfl, h.1, h.2.1⟩

/-! ## The handler that creates the invoice schedules the task on the invoice's own key -/

/-- The rows `POST /invoices` creates and the task it schedules: the task watches the
invoice's receiving address, compares the balance with the invoice's amount, and holds
the invoice's secret key. -/
theorem postInvoices_world (amount : ℚ) (webhookUrl : Option String) (payer : Keypair)
    (w : World) :
    (postInvoices amount webhookUrl payer w).2 =
      { invoices := w.invoices ++ [⟨w.invoices.length + 1, amount, payer.publicKey,
          payer.secretKey, "pending", webhookUrl⟩],
        cronJobs := w.cronJobs ++ [⟨w.cronJobs.length + 1, w.invoices.length + 1,
          "invoice_" ++ toString (w.invoices.length + 1) ++ "_monitoring", "pending"⟩],
        storeWrites := w.storeWrites ++
          [.invoiceCreate (w.invoices.length + 1), .cronJobCreate (w.cronJobs.length + 1)],
        ledgerCalls := w.ledgerCalls,
        webhookPosts := w.webhookPosts,
        tasks := w.tasks ++ [⟨w.cronJobs.length + 1, payer.publicKey, amount, webhookUrl,
          payer.secretKey⟩] } := by
  simp [postInvoices, invoiceCreate, cronJobCreate, scheduleCronJob]

/-- The concrete deployment is the one `POST /invoices` creates on the empty store. -/
theorem worldEx_eq_post : (postInvoices 1 (some urlEx) payerEx World.empty).2 = worldEx := by
  rw [postInvoices_world]
  rfl

/-! ## C2: the amount of the sweep -/

/-- C2, as stated, fails: line 78 subtracts in binary64. For an account holding `2 ^ 57`
lamports the run submits a transfer of 144115188075850880 lamports, which is not the
balance minus 5000 (144115188075850872). -/
theorem sweep_amount_rounded_above_2pow53 :
    callsOfTick (.ok adminEx) taskEx (envOk (2 ^ 57)) worldEx =
      [.getAccountInfo payerEx.publicKey,
       .sendAndConfirmTransaction payerEx.publicKey adminEx 144115188075850880 [payerEx]] ∧
    (144115188075850880 : ℚ) ≠ ((2 ^ 57 : Nat) : ℚ) - 5000 := by
  constructor
  · rw [callsOfTick_sweep adminEx taskEx (envOk (2 ^ 57)) worldEx
      ⟨1, 1, "invoice_1_monitoring", "pending"⟩ ⟨2 ^ 57⟩ rfl rfl (by decide) rfl
      (by rw [jsDiv_2pow57]; norm_num [taskEx]) (by decide)]
    rw [sweepCall, jsSub_2pow57]
    rfl
  · norm_num

/-- C2, amended. Every transfer a run submits goes from the address the task watches
(the invoice's receiving address, whose key pair the task holds) to the admin wallet,
and its amount is the binary64 difference of the observed balance and 5000 lamports:
it is never negative, and it is the balance minus 5000 exactly whenever the balance is
at most `2 ^ 53` lamports. In particular, when the account holds the reserve plus `u`
lamports (at most `2 ^ 53` in all) and the threshold is met, the run submits a transfer
of exactly `u` lamports, and when that transfer is confirmed and both store writes
succeed the invoice is paid and the job completed. -/
theorem sweep_amount_is_balance_minus_reserve (a : Except JsError PublicKey) (t : MonitorTask)
    (e : TickEnv) (w : World)
    (hkey : (Keypair.fromSecretKey t.privateKey).publicKey = t.payerPublicKey) :
    (∀ call ∈ callsOfTick a t e w, call.isTransfer = true →
      ∃ admin ai, a = .ok admin ∧ e.accountInfo = .ok (some ai) ∧ 5000 ≤ ai.lamports ∧
        call = .sendAndConfirmTransaction t.payerPublicKey admin (jsSub ai.lamports 5000)
          [Keypair.fromSecretKey t.privateKey] ∧
        0 ≤ jsSub ai.lamports 5000 ∧
        (ai.lamports ≤ 2 ^ 53 → jsSub ai.lamports 5000 = (ai.lamports : ℚ) - 5000)) ∧
    (∀ (admin : PublicKey) (job : CronJob) (inv : Invoice) (u : Nat),
      a = .ok admin →
      e.findUniqueError = none → cronJobFindUnique w t.cronJobId = some job →
      job.status = "pending" → invoiceFindUnique w job.invoiceId = some inv →
      e.accountInfo = .ok (some ⟨5000 + u⟩) → 5000 + u ≤ 2 ^ 53 →
      jsDiv (5000 + u) LAMPORTS_PER_SOL ≥ t.amount →
      callsOfTick a t e w = [.getAccountInfo t.payerPublicKey,
        .sendAndConfirmTransaction t.payerPublicKey admin u
          [Keypair.fromSecretKey t.privateKey]] ∧
      (e.transferError = none → e.invoiceUpdateError = none → e.cronJobUpdateError = none →
        invoiceStatus (tick a t e w).world job.invoiceId = some "paid" ∧
        cronJobStatus (tick a t e w).world t.cronJobId = some "completed")) := by
  constructor
  · intro call hmem htr
    rcases (tick_ledgerCalls a t e w).2 with ⟨h, _⟩ | ⟨h, _⟩ | ⟨admin, ai, ha, hr, _, hres, h⟩
    · rw [h] at hmem; cases hmem
    · rw [h] at hmem
      simp only [List.mem_singleton] at hmem
      subst hmem
      cases htr
    · rw [h] at hmem
      simp only [List.mem_cons, List.mem_singleton, List.not_mem_nil, or_false] at hmem
      rcases hmem with rfl | rfl
      · cases htr
      · refine ⟨admin, ai, ha, hr, hres, by simp [sweepCall, hkey, RESERVE], ?_, ?_⟩
        · have := (jsSub_reserve_neg_iff ai.lamports).not.2 (not_lt.2 hres)
          exact not_lt.1 this
        · intro hb
          exact jsSub_reserve_exact ai.lamports hres hb
  · intro admin job inv u ha hfind hjob hpend hinv hr hb hge
    subst ha
    have hs : job.status ≠ "completed" := by rw [hpend]; decide
    have hres : RESERVE ≤ (⟨5000 + u⟩ : AccountInfo).lamports := by simp [RESERVE]
    constructor
    · rw [callsOfTick_sweep admin t e w job ⟨5000 + u⟩ hfind hjob hs hr hge hres]
      have hx := jsSub_reserve_exact (5000 + u) hres hb
      simp only [sweepCall, hkey, hx]
      push_cast
      simp
    · intro hT hI hC
      exact tick_settles_status admin t e w job inv ⟨5000 + u⟩ hfind hjob hs hinv hr hge hres
        hT hI hC

/-- The run of `taskSmall` on an account holding the reserve plus one lamport. -/
theorem sweep_amount_is_balance_minus_reserve_witness :
    (Keypair.fromSecretKey taskSmall.privateKey).publicKey = taskSmall.payerPublicKey ∧
    callsOfTick (.ok adminEx) taskSmall (envOk 5001) worldSmall =
      [.getAccountInfo payerEx.publicKey,
       .sendAndConfirmTransaction payerEx.publicKey adminEx 1 [payerEx]] ∧
    invoiceStatus (tick (.ok adminEx) taskSmall (envOk 5001) worldSmall).world 1 = some "paid" ∧
    cronJobStatus (tick (.ok adminEx) taskSmall (envOk 5001) worldSmall).world 1 =
      some "completed" :=
  have h := (sweep_amount_is_balance_minus_reserve (.ok adminEx) taskSmall (envOk 5001)
    worldSmall rfl).2 adminEx ⟨1, 1, "invoice_1_monitoring", "pending"⟩
      ⟨1, amountSmall, payerEx.publicKey, payerEx.secretKey, "pending", some urlEx⟩ 1
      rfl rfl rfl rfl rfl rfl (by norm_num)
      (by rw [show 5000 + 1 = 5001 from rfl, jsDiv_5001]; norm_num [taskSmall, amountSmall])
  ⟨rfl, h.1, h.2 rfl rfl rfl⟩

/-! ## C3: there is no reserve guard of its own -/

/-- C3, as stated, fails: an invoice for 0.000001 SOL whose account holds exactly the
reserve of 5000 lamports meets the threshold of line 68, so the run submits a transfer
(of 0 lamports) and, the transfer confirmed, marks the invoice paid. -/
theorem settles_at_balance_equal_to_reserve :
    ((⟨5000⟩ : AccountInfo).lamports ≤ RESERVE) ∧
    callsOfTick (.ok adminEx) taskSmall (envOk 5000) worldSmall =
      [.getAccountInfo payerEx.publicKey,
       .sendAndConfirmTransaction payerEx.publicKey adminEx 0 [payerEx]] ∧
    invoiceStatus worldSmall 1 = some "pending" ∧
    invoiceStatus (tick (.ok adminEx) taskSmall (envOk 5000) worldSmall).world 1 =
      some "paid" := by
  have hge : jsDiv (⟨5000⟩ : AccountInfo).lamports LAMPORTS_PER_SOL ≥ taskSmall.amount := by
    rw [jsDiv_5000]; norm_num [taskSmall, amountSmall]
  refine ⟨by decide, ?_, rfl, ?_⟩
  · rw [callsOfTick_sweep adminEx taskSmall (envOk 5000) worldSmall
      ⟨1, 1, "invoice_1_monitoring", "pending"⟩ ⟨5000⟩ rfl rfl (by decide) rfl hge (by decide)]
    rw [sweepCall, jsSub_reserve_exact 5000 (by decide) (by norm_num)]
    norm_num
    exact ⟨rfl, rfl, rfl⟩
  · exact (tick_settles_status adminEx taskSmall (envOk 5000) worldSmall
      ⟨1, 1, "invoice_1_monitoring", "pending"⟩
      ⟨1, amountSmall, payerEx.publicKey, payerEx.secretKey, "pending", some urlEx⟩ ⟨5000⟩
      rfl rfl (by decide) rfl rfl hge (by decide) rfl rfl rfl).1

/-- C3, amended. When the observed balance is strictly below the reserve of 5000
lamports, the run submits no transfer, writes nothing to the store and posts nothing,
whatever the requested amount: the invoice is not marked paid. When the balance is
exactly the reserve, the same holds provided the threshold of line 68 is not met. -/
theorem no_sweep_at_or_below_reserve (a : Except JsError PublicKey) (t : MonitorTask)
    (e : TickEnv) (w : World) (ai : AccountInfo) (hr : e.accountInfo = .ok (some ai))
    (hle : ai.lamports ≤ RESERVE)
    (hamt : ai.lamports = RESERVE → thresholdMet e t.amount = false) :
    (callsOfTick a t e w).any LedgerCall.isTransfer = false ∧
    (tick a t e w).world.invoices = w.invoices ∧
    (tick a t e w).world.cronJobs = w.cronJobs ∧
    writesOfTick a t e w = [] ∧ postsOfTick a t e w = [] ∧
    (∀ id, invoiceStatus (tick a t e w).world id = invoiceStatus w id) := by
  have hm : sweepDue e t.amount = false := by
    by_cases heq : ai.lamports = RESERVE
    · exact sweepDue_false_of_threshold e t.amount (hamt heq)
    · have hlt : ¬ RESERVE ≤ ai.lamports := by omega
      simp [sweepDue, coversReserve, hr, hlt]
  obtain ⟨h1, h2, h3, h4, _, _⟩ := tick_quiet a t e w hm
  refine ⟨?_, h1, h2, ?_, ?_, ?_⟩
  · rcases (tick_ledgerCalls a t e w).2 with ⟨h, _⟩ | ⟨h, _⟩ | ⟨_, ai2, _, hr2, hge, hres, _⟩
    · rw [h]; rfl
    · rw [h]; rfl
    · have : sweepDue e t.amount = true := (sweepDue_iff e t.amount).2 ⟨ai2, hr2, hge, hres⟩
      rw [hm] at this; cases this
  · simp [writesOfTick, h3]
  · simp [postsOfTick, h4]
  · intro id
    simp [invoiceStatus, invoiceFindUnique, h1]

/-- An invoice for 0.000001 SOL whose account holds 4000 lamports: the threshold is met,
and no transfer is submitted. -/
theorem no_sweep_at_or_below_reserve_witness :
    (envOk 4000).accountInfo = .ok (some ⟨4000⟩) ∧
    ((⟨4000⟩ : AccountInfo).lamports ≤ RESERVE) ∧
    thresholdMet (envOk 4000) taskSmall.amount = true ∧
    (callsOfTick (.ok adminEx) taskSmall (envOk 4000) worldSmall).any LedgerCall.isTransfer
      = false ∧
    invoiceStatus (tick (.ok adminEx) taskSmall (envOk 4000) worldSmall).world 1 =
      some "pending" :=
  have h := no_sweep_at_or_below_reserve (.ok adminEx) taskSmall (envOk 4000) worldSmall
    ⟨4000⟩ rfl (by decide) (fun h => absurd h (by decide))
  ⟨rfl, by decide,
   (thresholdMet_iff _ _).2 ⟨⟨4000⟩, rfl, by rw [jsDiv_4000]; norm_num [taskSmall, amountSmall]⟩,
   h.1, (h.2.2.2.2.2 1).trans rfl⟩

/-! ## C4: the two store writes are sequential -/

/-- C4, as stated, fails: when the cronJob update throws after the invoice update has
been applied, the run leaves the invoice paid and its job pending. -/
theorem invoice_paid_job_pending_after_failed_job_write :
    invoicePaidJobPending worldEx 1 = false ∧
    invoicePaidJobPending
      (tick (.ok adminEx) taskEx
        ⟨none, .ok (some ⟨2000000000⟩), none, none, some netError, none⟩ worldEx).world 1
      = true ∧
    invoiceStatus
      (tick (.ok adminEx) taskEx
        ⟨none, .ok (some ⟨2000000000⟩), none, none, some netError, none⟩ worldEx).world 1
      = some "paid" ∧
    cronJobStatus
      (tick (.ok adminEx) taskEx
        ⟨none, .ok (some ⟨2000000000⟩), none, none, some netError, none⟩ worldEx).world 1
      = some "pending" := by
  have hw := tick_jobWrite_fails adminEx taskEx
    ⟨none, .ok (some ⟨2000000000⟩), none, none, some netError, none⟩ worldEx
    ⟨1, 1, "invoice_1_monitoring", "pending"⟩
    ⟨1, 1, payerEx.publicKey, payerEx.secretKey, "pending", some urlEx⟩ ⟨2000000000⟩ netError
    rfl rfl (by decide) rfl rfl (by rw [jsDiv_2e9]; norm_num [taskEx]) (by decide) rfl rfl rfl
  rw [hw]
  exact ⟨rfl, rfl, rfl, rfl⟩

/-- C4, amended. The run writes the invoice first and the job second. No run brings the
store to show the job completed while its invoice is still pending: if the store shows
that after a run, it showed it before. And when a run submits its transfer (the admin
wallet is valid, the threshold is met and the balance covers the reserve), the transfer
is confirmed and the invoice update succeeds, but the cronJob update throws, the invoice
is paid and the job row is left as it was. -/
theorem job_completed_only_after_invoice_paid (a : Except JsError PublicKey) (t : MonitorTask)
    (e : TickEnv) (w : World) :
    (jobCompletedInvoicePending (tick a t e w).world t.cronJobId = true →
      jobCompletedInvoicePending w t.cronJobId = true) ∧
    (∀ (admin : PublicKey) (job : CronJob) (inv : Invoice) (err : JsError),
      a = .ok admin →
      e.findUniqueError = none → cronJobFindUnique w t.cronJobId = some job →
      job.status ≠ "completed" → invoiceFindUnique w job.invoiceId = some inv →
      sweepDue e t.amount = true → e.transferError = none →
      e.invoiceUpdateError = none → e.cronJobUpdateError = some err →
      invoiceStatus (tick a t e w).world job.invoiceId = some "paid" ∧
      cronJobFindUnique (tick a t e w).world t.cronJobId = some job) := by
  constructor
  · intro hbad
    rcases tick_cases a t e w with ⟨h, _⟩ | ⟨job, _, _, _, _, _, _, h⟩ |
      ⟨job, admin, ai, _, hj, hs, _, _, _, hres, h⟩
    · rwa [h] at hbad
    · rw [h] at hbad
      exact hbad
    · exfalso
      rw [h] at hbad
      have hid := cronJobFindUnique_id hj
      rcases sweep_world_cases admin t e job ai
        (w.addLedgerCall (.getAccountInfo t.payerPublicKey))
        [.cronJobRunning t.cronJobId, .currentBalance t.payerPublicKey
          (jsDiv ai.lamports LAMPORTS_PER_SOL)] hres with
        ⟨hw, _⟩ | ⟨hw, _⟩ | ⟨inv, job2, hi, hj2, _, _, _, hw⟩
      · rw [hw] at hbad
        simp [jobCompletedInvoicePending, hj, hs] at hbad
      · rw [hw] at hbad
        simp [jobCompletedInvoicePending, hj, hs] at hbad
      · rw [hw] at hbad
        simp only [invoiceFindUnique_addLedgerCall] at hi
        have hiid := invoiceFindUnique_id hi
        revert hbad
        (repeat' split) <;>
          simp [jobCompletedInvoicePending, cronJobFindUnique_setCronJobStatus,
            invoiceFindUnique_setInvoiceStatus, hj, hi, hid, hiid]
  · intro admin job inv err ha hfind hj hs hi hm hT hI hC
    subst ha
    obtain ⟨ai, hr, hge, hres⟩ := (sweepDue_iff e t.amount).1 hm
    rw [tick_jobWrite_fails admin t e w job inv ai err hfind hj hs hi hr hge hres hT hI hC]
    have hiid := invoiceFindUnique_id hi
    simp [invoiceStatus, invoiceFindUnique_setInvoiceStatus, hi, hiid, hj]

/-- The run of `taskEx` whose cronJob update throws. -/
theorem job_completed_only_after_invoice_paid_witness :
    jobCompletedInvoicePending
      (tick (.ok adminEx) taskEx
        ⟨none, .ok (some ⟨2000000000⟩), none, none, some netError, none⟩
        worldEx).world taskEx.cronJobId = false ∧
    sweepDue ⟨none, .ok (some ⟨2000000000⟩), none, none, some netError, none⟩ taskEx.amount
      = true ∧
    cronJobFindUnique
      (tick (.ok adminEx) taskEx
        ⟨none, .ok (some ⟨2000000000⟩), none, none, some netError, none⟩
        worldEx).world taskEx.cronJobId = some ⟨1, 1, "invoice_1_monitoring", "pending"⟩ :=
  have h := job_completed_only_after_invoice_paid (.ok adminEx) taskEx
    ⟨none, .ok (some ⟨2000000000⟩), none, none, some netError, none⟩ worldEx
  have hm : sweepDue ⟨none, .ok (some ⟨2000000000⟩), none, none, some netError, none⟩
      taskEx.amount = true :=
    (sweepDue_iff _ _).2 ⟨⟨2000000000⟩, rfl, by rw [jsDiv_2e9]; norm_num [taskEx], by decide⟩
  ⟨by
    cases hb : jobCompletedInvoicePending
      (tick (.ok adminEx) taskEx
        ⟨none, .ok (some ⟨2000000000⟩), none, none, some netError, none⟩
        worldEx).world taskEx.cronJobId with
    | false => rfl
    | true => exact absurd (h.1 hb) (by decide),
   hm,
   (h.2 adminEx ⟨1, 1, "invoice_1_monitoring", "pending"⟩
      ⟨1, 1, payerEx.publicKey, payerEx.secretKey, "pending", some urlEx⟩ netError
      rfl rfl rfl (by decide) rfl hm rfl rfl rfl).2⟩

/-! ## C5: the custody secret in outbound bodies -/

/-- The response of `POST /invoices` never has the property `privateKey`. -/
theorem postInvoices_omits_privateKey (amount : ℚ) (webhookUrl : Option String)
    (payer : Keypair) (w : World) :
    (postInvoices amount webhookUrl payer w).1.body.hasKey "privateKey" = false := by
  simp [postInvoices, invoiceCreate, cronJobCreate, scheduleCronJob, Body.hasKey,
    JsonObject.hasKey, JsonObject.delete, Invoice.toObject]

/-- The webhook payload never has the property `privateKey`. -/
theorem webhookPayload_omits_privateKey (invoice : Invoice) :
    JsonObject.hasKey (webhookPayload invoice) "privateKey" = false := by
  simp [webhookPayload, JsonObject.hasKey]

/-- The response of `GET /invoices/:id` for an existing invoice is the whole row,
its `privateKey` included. -/
theorem getInvoiceById_has_privateKey (w : World) (id : Nat) (invoice : Invoice)
    (h : invoiceFindUnique w id = some invoice) :
    (getInvoiceById w id).body = .object invoice.toObject ∧
    (getInvoiceById w id).body.hasKey "privateKey" = true := by
  simp [getInvoiceById, h, Body.hasKey, JsonObject.hasKey, Invoice.toObject]

/-- C5 fails on the two GET handlers. After `POST /invoices` on the empty store, whose
own response omits `privateKey`, the bodies of `GET /invoices` and of `GET /invoices/1`
both carry the property `privateKey` with the bytes of the secret key. -/
theorem get_handlers_serialize_privateKey :
    (postInvoices 1 (some urlEx) payerEx World.empty).1.body.hasKey "privateKey" = false ∧
    (getInvoices (postInvoices 1 (some urlEx) payerEx World.empty).2).body.hasKey "privateKey"
      = true ∧
    (getInvoiceById (postInvoices 1 (some urlEx) payerEx World.empty).2 1).body.hasKey
      "privateKey" = true ∧
    (getInvoiceById (postInvoices 1 (some urlEx) payerEx World.empty).2 1).body =
      .object [("id", .num 1), ("amount", .num 1), ("walletAddress", .address payerEx.publicKey),
        ("privateKey", .byteArray payerEx.secretKey), ("status", .str "pending"),
        ("webhookUrl", .str urlEx)] := by
  refine ⟨postInvoices_omits_privateKey _ _ _ _, ?_, ?_, ?_⟩
  · rw [worldEx_eq_post]; rfl
  · rw [worldEx_eq_post]; rfl
  · rw [worldEx_eq_post]
    simp [getInvoiceById, invoiceFindUnique, worldEx, Invoice.toObject]


/-! ## C6: the settlement scenario -/

/-- C6. Take a pending job whose invoice has a callback URL, a valid admin wallet, and
successive runs of the callback in which the threshold is first met at run `k` (the
runs `pre` before it do not meet it; the runs `post` after it are arbitrary). If run `k`
submits its transfer (the job lookup succeeds and the balance covers the reserve), the
transfer is confirmed and both store writes succeed, then after run `k` the invoice is
paid and the job completed, nothing changes afterwards, and over the whole sequence the
webhook endpoint receives exactly one post, sent to the invoice's URL with the payload
invoiceId, status paid, amount (the invoice's amount) and walletAddress (the invoice's
receiving address). -/
theorem settlement_scenario (admin : PublicKey) (t : MonitorTask) (w : World) (job : CronJob)
    (inv : Invoice) (url : String) (pre post : List TickEnv) (ek : TickEnv)
    (hj : cronJobFindUnique w t.cronJobId = some job) (hpend : job.status = "pending")
    (hi : invoiceFindUnique w job.invoiceId = some inv)
    (hu : inv.webhookUrl = some url) (hne : url ≠ "")
    (hpre : ∀ e ∈ pre, thresholdMet e t.amount = false)
    (hfind : ek.findUniqueError = none) (hk : thresholdMet ek t.amount = true)
    (hres : coversReserve ek = true)
    (hT : ek.transferError = none) (hI : ek.invoiceUpdateError = none)
    (hC : ek.cronJobUpdateError = none) :
    invoiceStatus (runTicks (.ok admin) t (pre ++ [ek]) w) job.invoiceId = some "paid" ∧
    cronJobStatus (runTicks (.ok admin) t (pre ++ [ek]) w) t.cronJobId = some "completed" ∧
    runTicks (.ok admin) t (pre ++ ek :: post) w = runTicks (.ok admin) t (pre ++ [ek]) w ∧
    (runTicks (.ok admin) t pre w).webhookPosts = w.webhookPosts ∧
    (runTicks (.ok admin) t (pre ++ ek :: post) w).webhookPosts = w.webhookPosts ++
      [⟨url, [("invoiceId", .num inv.id), ("status", .str "paid"), ("amount", .num inv.amount),
        ("walletAddress", .address inv.walletAddress)]⟩] := by
  obtain ⟨q1, q2, _, q4, _, _⟩ := runTicks_quiet (.ok admin) t pre w
    (fun e he => sweepDue_false_of_threshold e t.amount (hpre e he))
  have hj2 : cronJobFindUnique (runTicks (.ok admin) t pre w) t.cronJobId = some job := by
    rw [← hj]; simp [cronJobFindUnique, q2]
  have hi2 : invoiceFindUnique (runTicks (.ok admin) t pre w) job.invoiceId = some inv := by
    rw [← hi]; simp [invoiceFindUnique, q1]
  have hs : job.status ≠ "completed" := by rw [hpend]; decide
  obtain ⟨ai, hr, hge, hres2⟩ := (sweepDue_iff ek t.amount).1 (by simp [sweepDue, hk, hres])
  obtain ⟨hw, _⟩ := tick_settles admin t ek (runTicks (.ok admin) t pre w) job inv ai url
    hfind hj2 hs hi2 hu hne hr hge hres2 hT hI hC
  have hk1 : runTicks (.ok admin) t (pre ++ [ek]) w =
      (tick (.ok admin) t ek (runTicks (.ok admin) t pre w)).world := by
    rw [runTicks_append]; rfl
  have hst := settled_status
    (((runTicks (.ok admin) t pre w).addLedgerCall
      (.getAccountInfo t.payerPublicKey)).addLedgerCall
      (sweepCall admin t ai)) t.cronJobId job inv (by simpa using hj2) (by simpa using hi2)
    ⟨url, webhookPayload { inv with status := "paid" }⟩
  have hend : runTicks (.ok admin) t (pre ++ ek :: post) w =
      runTicks (.ok admin) t (pre ++ [ek]) w := by
    have : pre ++ ek :: post = (pre ++ [ek]) ++ post := by simp
    rw [this, runTicks_append]
    exact runTicks_of_completed (.ok admin) t post _ (by rw [hk1, hw]; exact hst.2)
  refine ⟨by rw [hk1, hw]; exact hst.1, by rw [hk1, hw]; exact hst.2, hend, q4, ?_⟩
  rw [hend, hk1, hw, ← q4]
  rfl

/-- The invoice of `worldEx`, unfunded for two polls and funded with 1 SOL plus the
reserve at the third. -/
theorem settlement_scenario_witness :
    cronJobFindUnique worldEx taskEx.cronJobId = some ⟨1, 1, "invoice_1_monitoring", "pending"⟩ ∧
    invoiceStatus worldEx 1 = some "pending" ∧
    thresholdMet (envOk 1000005000) taskEx.amount = true ∧
    invoiceStatus
      (runTicks (.ok adminEx) taskEx ([envUnfunded, envOk 4000] ++ [envOk 1000005000])
        worldEx) 1 = some "paid" ∧
    cronJobStatus
      (runTicks (.ok adminEx) taskEx ([envUnfunded, envOk 4000] ++ [envOk 1000005000])
        worldEx) 1 = some "completed" ∧
    (runTicks (.ok adminEx) taskEx
      ([envUnfunded, envOk 4000] ++ envOk 1000005000 :: [envOk 5000, envUnfunded])
        worldEx).webhookPosts =
      [⟨urlEx, [("invoiceId", .num 1), ("status", .str "paid"), ("amount", .num 1),
        ("walletAddress", .address payerEx.publicKey)]⟩] :=
  have hpre : ∀ e ∈ [envUnfunded, envOk 4000], thresholdMet e taskEx.amount = false := by
    intro e he
    simp only [List.mem_cons, List.mem_singleton, List.not_mem_nil, or_false] at he
    rcases he with rfl | rfl
    · rfl
    · simp only [thresholdMet, envOk, jsDiv_4000, taskEx]; norm_num
  have hk : thresholdMet (envOk 1000005000) taskEx.amount = true :=
    (thresholdMet_iff _ _).2 ⟨⟨1000005000⟩, rfl, by rw [jsDiv_1000005000]; norm_num [taskEx]⟩
  have h := settlement_scenario adminEx taskEx worldEx ⟨1, 1, "invoice_1_monitoring", "pending"⟩
    ⟨1, 1, payerEx.publicKey, payerEx.secretKey, "pending", some urlEx⟩ urlEx
    [envUnfunded, envOk 4000] [envOk 5000, envUnfunded] (envOk 1000005000)
    rfl rfl rfl rfl (by decide) hpre rfl hk (by decide) rfl rfl rfl
  ⟨rfl, rfl, hk, h.1, h.2.1, h.2.2.2.2⟩

/-! ## C7: a failed webhook post -/

/-- C7. When the sweep is submitted and confirmed (valid admin wallet, threshold met on
a balance that covers the reserve) and both store writes succeed but the webhook post
throws, the error is caught and logged and the callback ends normally, the invoice
stays paid and the job completed, and no later run changes anything: the post made
during this run is the only one the endpoint ever receives for the invoice. -/
theorem failed_post_is_final (admin : PublicKey) (t : MonitorTask) (e : TickEnv) (w : World)
    (job : CronJob) (inv : Invoice) (url : String) (err : JsError) (later : List TickEnv)
    (hfind : e.findUniqueError = none) (hj : cronJobFindUnique w t.cronJobId = some job)
    (hpend : job.status = "pending") (hi : invoiceFindUnique w job.invoiceId = some inv)
    (hu : inv.webhookUrl = some url) (hne : url ≠ "")
    (hk : thresholdMet e t.amount = true) (hres : coversReserve e = true)
    (hT : e.transferError = none) (hI : e.invoiceUpdateError = none)
    (hC : e.cronJobUpdateError = none) (hP : e.postError = some err) :
    (tick (.ok admin) t e w).outcome = .resolved ∧
    ConsoleLine.errorTransferring job.invoiceId err ∈ (tick (.ok admin) t e w).console ∧
    invoiceStatus (tick (.ok admin) t e w).world job.invoiceId = some "paid" ∧
    cronJobStatus (tick (.ok admin) t e w).world t.cronJobId = some "completed" ∧
    postsOfTick (.ok admin) t e w = [⟨url, webhookPayload { inv with status := "paid" }⟩] ∧
    runTicks (.ok admin) t later (tick (.ok admin) t e w).world =
      (tick (.ok admin) t e w).world ∧
    invoiceStatus (runTicks (.ok admin) t later (tick (.ok admin) t e w).world) job.invoiceId
      = some "paid" ∧
    (runTicks (.ok admin) t later (tick (.ok admin) t e w).world).webhookPosts =
      w.webhookPosts ++ [⟨url, webhookPayload { inv with status := "paid" }⟩] := by
  have hs : job.status ≠ "completed" := by rw [hpend]; decide
  obtain ⟨ai, hr, hge, hres2⟩ := (sweepDue_iff e t.amount).1 (by simp [sweepDue, hk, hres])
  obtain ⟨hw, ho⟩ := tick_settles admin t e w job inv ai url hfind hj hs hi hu hne hr hge hres2
    hT hI hC
  have hst := settled_status
    ((w.addLedgerCall (.getAccountInfo t.payerPublicKey)).addLedgerCall
      (sweepCall admin t ai)) t.cronJobId job inv (by simpa using hj) (by simpa using hi)
    ⟨url, webhookPayload { inv with status := "paid" }⟩
  have hposts : (tick (.ok admin) t e w).world.webhookPosts =
      w.webhookPosts ++ [⟨url, webhookPayload { inv with status := "paid" }⟩] := by
    rw [hw]; rfl
  have hlater : runTicks (.ok admin) t later (tick (.ok admin) t e w).world =
      (tick (.ok admin) t e w).world :=
    runTicks_of_completed (.ok admin) t later _ (by rw [hw]; exact hst.2)
  refine ⟨ho, ?_, by rw [hw]; exact hst.1, by rw [hw]; exact hst.2, ?_, hlater, ?_, ?_⟩
  · rw [tick_sweep admin t e w job ai hfind hj hs hr hge]
    simp only [sweep, transfer_reserve, if_neg (not_lt.2 hres2), hT, hI, hC, invoiceUpdate,
      cronJobUpdate, invoiceFindUnique_addLedgerCall,
      cronJobFindUnique_addLedgerCall, cronJobFindUnique_setInvoiceStatus, hi, hj, hu, hne,
      if_false, hP, catchBlock]
    split <;> simp
  · rw [postsOfTick, hposts, drop_length_append]
  · rw [hlater, hw]; exact hst.1
  · rw [hlater, hposts]

/-- The run of `taskEx` on a funded account, the merchant's endpoint refusing the
connection, followed by two more runs. -/
theorem failed_post_is_final_witness :
    cronJobFindUnique worldEx taskEx.cronJobId = some ⟨1, 1, "invoice_1_monitoring", "pending"⟩ ∧
    thresholdMet ⟨none, .ok (some ⟨2000000000⟩), none, none, none, some netError⟩
      taskEx.amount = true ∧
    (tick (.ok adminEx) taskEx ⟨none, .ok (some ⟨2000000000⟩), none, none, none, some netError⟩
      worldEx).outcome = .resolved ∧
    invoiceStatus (tick (.ok adminEx) taskEx
      ⟨none, .ok (some ⟨2000000000⟩), none, none, none, some netError⟩ worldEx).world 1
      = some "paid" ∧
    (runTicks (.ok adminEx) taskEx [envOk 5000, envOk 2000000000]
      (tick (.ok adminEx) taskEx
        ⟨none, .ok (some ⟨2000000000⟩), none, none, none, some netError⟩
        worldEx).world).webhookPosts =
      [⟨urlEx, [("invoiceId", .num 1), ("status", .str "paid"), ("amount", .num 1),
        ("walletAddress", .address payerEx.publicKey)]⟩] :=
  have hk : thresholdMet ⟨none, .ok (some ⟨2000000000⟩), none, none, none, some netError⟩
      taskEx.amount = true :=
    (thresholdMet_iff _ _).2 ⟨⟨2000000000⟩, rfl, by rw [jsDiv_2e9]; norm_num [taskEx]⟩
  have h := failed_post_is_final adminEx taskEx
    ⟨none, .ok (some ⟨2000000000⟩), none, none, none, some netError⟩ worldEx
    ⟨1, 1, "invoice_1_monitoring", "pending"⟩
    ⟨1, 1, payerEx.publicKey, payerEx.secretKey, "pending", some urlEx⟩ urlEx netError
    [envOk 5000, envOk 2000000000] rfl rfl rfl rfl rfl (by decide) hk (by decide)
    rfl rfl rfl rfl
  ⟨rfl, hk, h.1, h.2.2.1, h.2.2.2.2.2.2.2⟩

/-! ## C8: a failed transfer -/

/-- C8. When the transfer submission throws (the run had a valid admin wallet, met the
threshold and read a balance that covers the reserve, so that the transfer was
submitted), the run leaves the store as it was (the invoice and the job still pending),
posts nothing, catches and logs the error and ends normally. The next run reads the
balance again and submits a transfer exactly when one is due then. And in any run, the
invoice is written paid only when the transfer of that run was submitted and confirmed. -/
theorem failed_transfer_is_retried (admin : PublicKey) (t : MonitorTask) (e : TickEnv)
    (w : World) (job : CronJob) (err : JsError)
    (hfind : e.findUniqueError = none) (hj : cronJobFindUnique w t.cronJobId = some job)
    (hpend : job.status = "pending") (hk : thresholdMet e t.amount = true)
    (hres : coversReserve e = true) (hT : e.transferError = some err) :
    (tick (.ok admin) t e w).world.invoices = w.invoices ∧
    (tick (.ok admin) t e w).world.cronJobs = w.cronJobs ∧
    cronJobStatus (tick (.ok admin) t e w).world t.cronJobId = some "pending" ∧
    (∀ id, invoiceStatus (tick (.ok admin) t e w).world id = invoiceStatus w id) ∧
    (callsOfTick (.ok admin) t e w).any LedgerCall.isTransfer = true ∧
    writesOfTick (.ok admin) t e w = [] ∧ postsOfTick (.ok admin) t e w = [] ∧
    (tick (.ok admin) t e w).outcome = .resolved ∧
    ConsoleLine.errorTransferring job.invoiceId err ∈ (tick (.ok admin) t e w).console ∧
    (∀ e2 : TickEnv, e2.findUniqueError = none →
      ∃ rest, callsOfTick (.ok admin) t e2 (tick (.ok admin) t e w).world =
          .getAccountInfo t.payerPublicKey :: rest ∧
        rest.any LedgerCall.isTransfer = sweepDue e2 t.amount) ∧
    (∀ (a2 : Except JsError PublicKey) (e2 : TickEnv) (w2 : World) (id : Nat),
      StoreWrite.invoiceUpdate id "paid" ∈ writesOfTick a2 t e2 w2 →
        e2.transferError = none ∧ (callsOfTick a2 t e2 w2).any LedgerCall.isTransfer = true) := by
  have hs : job.status ≠ "completed" := by rw [hpend]; decide
  obtain ⟨ai, hr, hge, hres2⟩ := (sweepDue_iff e t.amount).1 (by simp [sweepDue, hk, hres])
  have htick := tick_sweep admin t e w job ai hfind hj hs hr hge
  have hw : (tick (.ok admin) t e w).world =
      (w.addLedgerCall (.getAccountInfo t.payerPublicKey)).addLedgerCall
        (sweepCall admin t ai) := by
    rw [htick]
    rcases sweep_world_cases admin t e job ai
      (w.addLedgerCall (.getAccountInfo t.payerPublicKey))
      [.cronJobRunning t.cronJobId, .currentBalance t.payerPublicKey
        (jsDiv ai.lamports LAMPORTS_PER_SOL)] hres2 with
      ⟨hw, _⟩ | ⟨_, h1, _⟩ | ⟨_, _, _, _, h1, _⟩
    · exact hw
    · rw [hT] at h1; cases h1
    · rw [hT] at h1; cases h1
  have hj2 : cronJobFindUnique (tick (.ok admin) t e w).world t.cronJobId = some job := by
    rw [hw]; simpa using hj
  refine ⟨by rw [hw]; rfl, by rw [hw]; rfl, ?_, ?_, ?_, ?_, ?_, ?_, ?_, ?_, ?_⟩
  · simp [cronJobStatus, hj2, hpend]
  · intro id; rw [hw]; rfl
  · rw [callsOfTick_sweep admin t e w job ai hfind hj hs hr hge hres2]; rfl
  · simp [writesOfTick, hw, World.addLedgerCall]
  · simp [postsOfTick, hw, World.addLedgerCall]
  · rw [htick]; exact sweep_outcome _ _ _ _ _ _ _ hres2
  · rw [htick]
    simp only [sweep, transfer_reserve, if_neg (not_lt.2 hres2), hT, catchBlock]
    split <;> simp
  · intro e2 hf2
    rcases (tick_ledgerCalls (.ok admin) t e2 (tick (.ok admin) t e w).world).2 with
      ⟨_, h1 | h1 | h1 | ⟨err2, h1⟩⟩ | ⟨h, hm2⟩ | ⟨admin3, ai3, ha3, hr3, hge3, hres3, h⟩
    · exact absurd hf2 h1
    · rw [hj2] at h1; cases h1
    · simp [cronJobStatus, hj2] at h1; exact absurd h1 hs
    · cases h1
    · exact ⟨[], h, by rw [hm2]; rfl⟩
    · have hm2 : sweepDue e2 t.amount = true :=
        (sweepDue_iff e2 t.amount).2 ⟨ai3, hr3, hge3, hres3⟩
      exact ⟨[sweepCall admin3 t ai3], h, by rw [hm2]; rfl⟩
  · intro a2 e2 w2 id hmem
    rcases tick_storeWrites a2 t e2 w2 with h | ⟨job2, admin2, ai2, _, hT2, _, _, hc, _⟩
    · rw [h] at hmem; cases hmem
    · exact ⟨hT2, by rw [hc]; rfl⟩

/-- The run of `taskEx` on a funded account whose transfer the ledger rejects. -/
theorem failed_transfer_is_retried_witness :
    cronJobFindUnique worldEx taskEx.cronJobId = some ⟨1, 1, "invoice_1_monitoring", "pending"⟩ ∧
    thresholdMet
      ⟨none, .ok (some ⟨2000000000⟩), some ⟨"Transaction simulation failed", some ["log"]⟩,
        none, none, none⟩ taskEx.amount = true ∧
    (tick (.ok adminEx) taskEx
      ⟨none, .ok (some ⟨2000000000⟩), some ⟨"Transaction simulation failed", some ["log"]⟩,
        none, none, none⟩ worldEx).world.invoices = worldEx.invoices ∧
    cronJobStatus (tick (.ok adminEx) taskEx
      ⟨none, .ok (some ⟨2000000000⟩), some ⟨"Transaction simulation failed", some ["log"]⟩,
        none, none, none⟩ worldEx).world 1 = some "pending" ∧
    (tick (.ok adminEx) taskEx
      ⟨none, .ok (some ⟨2000000000⟩), some ⟨"Transaction simulation failed", some ["log"]⟩,
        none, none, none⟩ worldEx).outcome = .resolved :=
  have hk : thresholdMet
      ⟨none, .ok (some ⟨2000000000⟩), some ⟨"Transaction simulation failed", some ["log"]⟩,
        none, none, none⟩ taskEx.amount = true :=
    (thresholdMet_iff _ _).2 ⟨⟨2000000000⟩, rfl, by rw [jsDiv_2e9]; norm_num [taskEx]⟩
  have h := failed_transfer_is_retried adminEx taskEx
    ⟨none, .ok (some ⟨2000000000⟩), some ⟨"Transaction simulation failed", some ["log"]⟩,
      none, none, none⟩ worldEx ⟨1, 1, "invoice_1_monitoring", "pending"⟩
    ⟨"Transaction simulation failed", some ["log"]⟩ rfl rfl rfl hk (by decide) rfl
  ⟨rfl, hk, h.1, h.2.2.1, h.2.2.2.2.2.2.2.1⟩

/-! ## C9: the threshold and the reserve decide the sweep -/

/-- C9, as stated, fails: for an invoice of 0.000001 SOL whose job is pending and whose
account holds 4000 lamports, the balance in SOL is at least the requested amount, yet no
transfer is submitted: building the instruction for 4000 - 5000 lamports throws at line
74 and the callback rejects. -/
theorem threshold_met_without_sweep :
    0 < taskSmall.amount ∧
    cronJobStatus worldSmall taskSmall.cronJobId = some "pending" ∧
    (envOk 4000).accountInfo = .ok (some ⟨4000⟩) ∧
    jsDiv 4000 LAMPORTS_PER_SOL ≥ taskSmall.amount ∧
    (callsOfTick (.ok adminEx) taskSmall (envOk 4000) worldSmall).any LedgerCall.isTransfer
      = false ∧
    (tick (.ok adminEx) taskSmall (envOk 4000) worldSmall).outcome =
      .rejected lamportsEncodeError := by
  have hge : jsDiv (⟨4000⟩ : AccountInfo).lamports LAMPORTS_PER_SOL ≥ taskSmall.amount := by
    rw [jsDiv_4000]; norm_num [taskSmall, amountSmall]
  have ht := tick_underReserve adminEx taskSmall (envOk 4000) worldSmall
    ⟨1, 1, "invoice_1_monitoring", "pending"⟩ ⟨4000⟩ rfl rfl (by decide) rfl hge (by decide)
  refine ⟨by norm_num [taskSmall, amountSmall], rfl, rfl, hge, ?_, ?_⟩
  · rw [callsOfTick, ht]; rfl
  · rw [ht]

/-- C9, amended. For an invoice with a positive amount, a valid admin wallet and a run
that reads its job as pending, a transfer is submitted if and only if the account
record exists, its balance in SOL (the binary64 quotient lamports / LAMPORTS_PER_SOL) is
at least the requested amount, and the balance is at least 5000 lamports. A missing
record and a zero balance do not meet the threshold. When the threshold is not met the
run writes nothing to the store, posts nothing and submits no transfer, so after any
number of such polls the invoice and the job are as they were. -/
theorem sweep_iff_threshold_and_reserve (admin : PublicKey) (t : MonitorTask) (e : TickEnv)
    (w : World) (job : CronJob) (hpos : 0 < t.amount)
    (hfind : e.findUniqueError = none) (hj : cronJobFindUnique w t.cronJobId = some job)
    (hpend : job.status = "pending") :
    ((callsOfTick (.ok admin) t e w).any LedgerCall.isTransfer = true ↔
      ∃ ai, e.accountInfo = .ok (some ai) ∧
        jsDiv ai.lamports LAMPORTS_PER_SOL ≥ t.amount ∧ 5000 ≤ ai.lamports) ∧
    (e.accountInfo = .ok none → thresholdMet e t.amount = false) ∧
    (e.accountInfo = .ok (some ⟨0⟩) → thresholdMet e t.amount = false) ∧
    (thresholdMet e t.amount = false →
      (callsOfTick (.ok admin) t e w).any LedgerCall.isTransfer = false ∧
      writesOfTick (.ok admin) t e w = [] ∧ postsOfTick (.ok admin) t e w = [] ∧
      (tick (.ok admin) t e w).world.invoices = w.invoices ∧
      (tick (.ok admin) t e w).world.cronJobs = w.cronJobs) ∧
    (∀ polls : List TickEnv, (∀ p ∈ polls, thresholdMet p t.amount = false) →
      (∀ id, invoiceStatus (runTicks (.ok admin) t polls w) id = invoiceStatus w id) ∧
      cronJobStatus (runTicks (.ok admin) t polls w) t.cronJobId = some "pending" ∧
      (runTicks (.ok admin) t polls w).storeWrites = w.storeWrites ∧
      (runTicks (.ok admin) t polls w).webhookPosts = w.webhookPosts ∧
      (runTicks (.ok admin) t polls w).ledgerCalls.filter LedgerCall.isTransfer =
        w.ledgerCalls.filter LedgerCall.isTransfer) := by
  have hs : job.status ≠ "completed" := by rw [hpend]; decide
  refine ⟨?_, ?_, ?_, ?_, ?_⟩
  · have hiff := sweepDue_iff e t.amount
    simp only [RESERVE] at hiff
    rw [← hiff]
    rcases (tick_ledgerCalls (.ok admin) t e w).2 with ⟨_, h1 | h1 | h1 | ⟨err, h1⟩⟩ |
      ⟨h, hm⟩ | ⟨admin2, ai, _, hr, hge, hres, h⟩
    · exact absurd hfind h1
    · rw [hj] at h1; cases h1
    · simp [cronJobStatus, hj] at h1; exact absurd h1 hs
    · cases h1
    · rw [h, hm]; simp [LedgerCall.isTransfer]
    · have hm : sweepDue e t.amount = true := (sweepDue_iff e t.amount).2 ⟨ai, hr, hge, hres⟩
      rw [h, hm]; simp [sweepCall, LedgerCall.isTransfer]
  · intro hr
    simp [thresholdMet, hr]
  · intro hr
    simp [thresholdMet, hr, jsDiv_zero, hpos]
  · intro hm
    have hd := sweepDue_false_of_threshold e t.amount hm
    obtain ⟨h1, h2, h3, h4, _, _⟩ := tick_quiet (.ok admin) t e w hd
    refine ⟨?_, by simp [writesOfTick, h3], by simp [postsOfTick, h4], h1, h2⟩
    rcases (tick_ledgerCalls (.ok admin) t e w).2 with ⟨h, _⟩ | ⟨h, _⟩ |
      ⟨_, ai, _, hr, hge, hres, _⟩
    · rw [h]; rfl
    · rw [h]; rfl
    · have : sweepDue e t.amount = true := (sweepDue_iff e t.amount).2 ⟨ai, hr, hge, hres⟩
      rw [hd] at this; cases this
  · intro polls hpolls
    obtain ⟨h1, h2, h3, h4, _, h6⟩ := runTicks_quiet (.ok admin) t polls w
      (fun p hp => sweepDue_false_of_threshold p t.amount (hpolls p hp))
    refine ⟨?_, ?_, h3, h4, h6⟩
    · intro id
      simp [invoiceStatus, invoiceFindUnique, h1]
    · have : cronJobFindUnique (runTicks (.ok admin) t polls w) t.cronJobId = some job := by
        rw [← hj]; simp [cronJobFindUnique, h2]
      simp [cronJobStatus, this, hpend]


/-- The invoice of `worldEx` for 1 SOL, polled while unfunded and while holding 4000
lamports, and polled once funded. -/
theorem sweep_iff_threshold_and_reserve_witness :
    0 < taskEx.amount ∧
    cronJobFindUnique worldEx taskEx.cronJobId = some ⟨1, 1, "invoice_1_monitoring", "pending"⟩ ∧
    (callsOfTick (.ok adminEx) taskEx (envOk 1000000000) worldEx).any LedgerCall.isTransfer
      = true ∧
    (callsOfTick (.ok adminEx) taskEx envUnfunded worldEx).any LedgerCall.isTransfer = false ∧
    invoiceStatus (runTicks (.ok adminEx) taskEx
      [envUnfunded, envOk 0, envOk 4000, envUnfunded] worldEx) 1 = some "pending" :=
  have hpos : 0 < taskEx.amount := by norm_num [taskEx]
  have h := sweep_iff_threshold_and_reserve adminEx taskEx (envOk 1000000000) worldEx
    ⟨1, 1, "invoice_1_monitoring", "pending"⟩ hpos rfl rfl rfl
  have h2 := sweep_iff_threshold_and_reserve adminEx taskEx envUnfunded worldEx
    ⟨1, 1, "invoice_1_monitoring", "pending"⟩ hpos rfl rfl rfl
  have hpolls : ∀ p ∈ [envUnfunded, envOk 0, envOk 4000, envUnfunded],
      thresholdMet p taskEx.amount = false := by
    intro p hp
    simp only [List.mem_cons, List.mem_singleton, List.not_mem_nil, or_false] at hp
    rcases hp with rfl | rfl | rfl | rfl
    · rfl
    · simp only [thresholdMet, envOk, jsDiv_zero, taskEx]; norm_num
    · simp only [thresholdMet, envOk, jsDiv_4000, taskEx]; norm_num
    · rfl
  ⟨hpos, rfl,
   h.1.2 ⟨⟨1000000000⟩, rfl, by rw [jsDiv_1e9]; norm_num [taskEx], by decide⟩,
   (h2.2.2.2.1 rfl).1,
   ((h.2.2.2.2 _ hpolls).1 1).trans rfl⟩

/-! ## C10: which errors the callback contains -/

/-- C10, as stated, fails: the `try` block starts at line 82, after the job lookup, the
construction of the admin wallet address, the balance read and the building of the
transfer instruction. A job lookup that throws, a job lookup that finds no row, and a
balance read that throws each reject the promise of the callback. -/
theorem lookup_and_read_errors_escape :
    (tick (.ok adminEx) taskEx ⟨some netError, .ok none, none, none, none, none⟩
      worldEx).outcome = .rejected netError ∧
    (tick (.ok adminEx) taskEx envUnfunded World.empty).outcome =
      .rejected nullStatusTypeError ∧
    (tick (.ok adminEx) taskEx ⟨none, .error netError, none, none, none, none⟩
      worldEx).outcome = .rejected netError := by
  refine ⟨?_, ?_, ?_⟩
  · rw [tick_findError (.ok adminEx) taskEx _ worldEx netError rfl]
  · rw [tick_noJob (.ok adminEx) taskEx envUnfunded World.empty rfl rfl]
  · rw [tick_readError adminEx taskEx _ worldEx ⟨1, 1, "invoice_1_monitoring", "pending"⟩
      netError rfl rfl (by decide) rfl]

/-- C10, amended. Once the job lookup has returned a row, then for a job that is not
completed the admin wallet is a valid address, the balance read has returned, and the
balance covers the reserve whenever the threshold is met, the callback ends normally
whatever the transfer, the two store writes and the webhook post do: their errors are
caught by the `try` of lines 82 to 113. An error of the job lookup, a missing job row,
an invalid admin wallet, an error of the balance read, and a threshold met on a balance
below the reserve are not caught: the callback rejects with that error, having written
nothing to the store, submitted no transfer and posted nothing. -/
theorem errors_contained_after_lookup (a : Except JsError PublicKey) (t : MonitorTask)
    (e : TickEnv) (w : World) :
    (∀ job, e.findUniqueError = none → cronJobFindUnique w t.cronJobId = some job →
      (job.status = "completed" ∨
        ((∃ admin, a = .ok admin) ∧ (∃ r, e.accountInfo = .ok r) ∧
          (thresholdMet e t.amount = true → coversReserve e = true))) →
      (tick a t e w).outcome = .resolved) ∧
    (∀ err, e.findUniqueError = some err →
      (tick a t e w).outcome = .rejected err ∧ (tick a t e w).world = w) ∧
    (e.findUniqueError = none → cronJobFindUnique w t.cronJobId = none →
      (tick a t e w).outcome = .rejected nullStatusTypeError ∧ (tick a t e w).world = w) ∧
    (∀ job err, e.findUniqueError = none → cronJobFindUnique w t.cronJobId = some job →
      job.status ≠ "completed" → a = .error err →
      (tick a t e w).outcome = .rejected err ∧ (tick a t e w).world = w) ∧
    (∀ job admin err, e.findUniqueError = none → cronJobFindUnique w t.cronJobId = some job →
      job.status ≠ "completed" → a = .ok admin → e.accountInfo = .error err →
      (tick a t e w).outcome = .rejected err ∧
      (tick a t e w).world = w.addLedgerCall (.getAccountInfo t.payerPublicKey)) ∧
    (∀ job admin, e.findUniqueError = none → cronJobFindUnique w t.cronJobId = some job →
      job.status ≠ "completed" → a = .ok admin → thresholdMet e t.amount = true →
      coversReserve e = false →
      (tick a t e w).outcome = .rejected lamportsEncodeError ∧
      (tick a t e w).world = w.addLedgerCall (.getAccountInfo t.payerPublicKey)) := by
  refine ⟨?_, ?_, ?_, ?_, ?_, ?_⟩
  · intro job hfind hj hor
    by_cases hs : job.status = "completed"
    · rw [tick_completed a t e w job hfind hj hs]
    · rcases hor with h | ⟨⟨admin, ha⟩, ⟨r, hr⟩, hcov⟩
      · exact absurd h hs
      · subst ha
        cases hm : thresholdMet e t.amount with
        | false => exact (tick_below admin t e w job hfind hj hs ⟨r, hr⟩ hm).2
        | true =>
          obtain ⟨ai, hai, hge, hres⟩ :=
            (sweepDue_iff e t.amount).1 (by simp [sweepDue, hm, hcov hm])
          rw [tick_sweep admin t e w job ai hfind hj hs hai hge]
          exact sweep_outcome _ _ _ _ _ _ _ hres
  · intro err h
    rw [tick_findError a t e w err h]
    exact ⟨rfl, rfl⟩
  · intro h hj
    rw [tick_noJob a t e w h hj]
    exact ⟨rfl, rfl⟩
  · intro job err h hj hs ha
    subst ha
    rw [tick_badAdmin t e w job err h hj hs]
    exact ⟨rfl, rfl⟩
  · intro job admin err h hj hs ha hr
    subst ha
    rw [tick_readError admin t e w job err h hj hs hr]
    exact ⟨rfl, rfl⟩
  · intro job admin h hj hs ha hm hcov
    subst ha
    obtain ⟨ai, hai, hge⟩ := (thresholdMet_iff e t.amount).1 hm
    have hlt : ai.lamports < RESERVE := by
      have : ¬ RESERVE ≤ ai.lamports := by
        simpa [coversReserve, hai] using hcov
      omega
    rw [tick_underReserve admin t e w job ai h hj hs hai hge hlt]
    exact ⟨rfl, rfl⟩

/-- The run of `taskEx` on a funded account in which the transfer, both store writes and
the post would throw: the callback still ends normally; and the runs with an invalid
admin wallet and with a balance below the reserve, which reject. -/
theorem errors_contained_after_lookup_witness :
    cronJobFindUnique worldEx taskEx.cronJobId = some ⟨1, 1, "invoice_1_monitoring", "pending"⟩ ∧
    (tick (.ok adminEx) taskEx
      ⟨none, .ok (some ⟨2000000000⟩), some netError, some netError, some netError,
        some netError⟩ worldEx).outcome = .resolved ∧
    (tick (.error invalidPublicKey) taskEx (envOk 2000000000) worldEx).outcome =
      .rejected invalidPublicKey ∧
    (tick (.ok adminEx) taskSmall (envOk 4000) worldSmall).outcome =
      .rejected lamportsEncodeError :=
  ⟨rfl,
   (errors_contained_after_lookup (.ok adminEx) taskEx
      ⟨none, .ok (some ⟨2000000000⟩), some netError, some netError, some netError,
        some netError⟩ worldEx).1 ⟨1, 1, "invoice_1_monitoring", "pending"⟩ rfl rfl
      (Or.inr ⟨⟨_, rfl⟩, ⟨_, rfl⟩, fun _ => by decide⟩),
   ((errors_contained_after_lookup (.error invalidPublicKey) taskEx (envOk 2000000000)
      worldEx).2.2.2.1 ⟨1, 1, "invoice_1_monitoring", "pending"⟩ invalidPublicKey rfl rfl
      (by decide) rfl).1,
   ((errors_contained_after_lookup (.ok adminEx) taskSmall (envOk 4000)
      worldSmall).2.2.2.2.2 ⟨1, 1, "invoice_1_monitoring", "pending"⟩ adminEx rfl rfl
      (by decide) rfl
      ((thresholdMet_iff _ _).2 ⟨⟨4000⟩, rfl,
        by rw [jsDiv_4000]; norm_num [taskSmall, amountSmall]⟩)
      (by decide)).1⟩

end SolGateway
